import Mathlib

/-!
Verification development for the SCD (strategic coordination) data node of the
DSS repository.  The definitions below are a shallow embedding of the Python
sources under `datanode/src/app/scd/`:

* `geo.py`              → `Volume4`, `Volume4.contains`, `overlaps_time_altitude`,
                          `combine_volume4s`, `expand_volume4`
* `subscriptions.py`    → `Subscription`, `Subscription.from_request`, `get_subscribers`
* `operations.py`       → `Operation`, `Operation.from_request`, `Operation.to_dict`
* `memory_storage.py`   → `MemoryScdStorage` and its upsert/find/delete methods
* `subscription_endpoints.py`, `operation_endpoints.py` → the endpoint handlers

Modelling conventions:
* Timestamps and altitudes are Python `datetime`/`float` values used only
  through order comparisons; they are embedded as `Int`.
* UUIDs, USS identities (token `client_id` strings), USS base URLs and S2 cell
  ids are opaque values used only through equality (and hashing); they are
  embedded as `Nat`.
* A Python value that may be `None` is embedded as an `Option`.
* Python exceptions are embedded as `Except DssError`; a handler returns its
  (possibly partially mutated) store next to the `Except` value, because in the
  source an exception thrown after an in-place mutation of a stored object
  leaves that mutation in the store (`get_subscription` returns the stored
  object itself, so attribute updates write through).
* Python dicts are embedded as association lists with the insert operation
  removing any previous binding of the key (`mlookup`, `minsert`, `merase`).
-/

/-- Error kinds raised by the scd core.  `valueError` is mapped to HTTP 400
(`InvalidRequest`) by `routes.py`; `notFoundError` to 404 and `notOwnedError`
to 403 by `scd.handle_exception`; the remaining kinds are uncaught Python
exceptions (HTTP 500). -/
inductive DssError where
  | valueError
  | notFoundError
  | notOwnedError
  | typeError
  | keyError
  | attributeError
deriving DecidableEq, Repr

deriving instance DecidableEq for Except

/-- Association-list map with `Nat` keys: the embedding of a Python dict.
Lookup returns the first binding. -/
def mlookup {β : Type} : List (Nat × β) → Nat → Option β
  | [], _ => none
  | (k, v) :: rest, key => if key = k then some v else mlookup rest key

/-- Dict assignment `d[k] = v`: any previous binding of `k` is replaced. -/
def minsert {β : Type} (k : Nat) (v : β) (m : List (Nat × β)) : List (Nat × β) :=
  (k, v) :: m.filter (fun p => p.1 ≠ k)

/-- Dict deletion `del d[k]` / `d.pop(k)` (the caller handles the absent case). -/
def merase {β : Type} (k : Nat) (m : List (Nat × β)) : List (Nat × β) :=
  m.filter (fun p => p.1 ≠ k)

/-- The keys of the map are pairwise distinct (holds for every map built by
`minsert`/`merase` from the empty map, mirroring a Python dict). -/
def mkeysNodup {β : Type} (m : List (Nat × β)) : Prop :=
  (m.map Prod.fst).Nodup

theorem mlookup_filter_ne {β : Type} (m : List (Nat × β)) (k key : Nat) (h : key ≠ k) :
    mlookup (m.filter (fun p => p.1 ≠ k)) key = mlookup m key := by
  induction m with
  | nil => rfl
  | cons p rest ih =>
    rw [List.filter_cons]
    by_cases hp : p.1 = k
    · have hd : (decide (p.1 ≠ k)) = false := by simp [hp]
      rw [hd]
      simp only [Bool.false_eq_true, if_false]
      rw [ih]
      have hkp : key ≠ p.1 := by rw [hp]; exact h
      simp [mlookup, hkp]
    · have hd : (decide (p.1 ≠ k)) = true := by simp [hp]
      rw [hd, if_pos rfl]
      simp only [mlookup]
      by_cases hkey : key = p.1
      · simp [hkey]
      · rw [if_neg hkey, if_neg hkey]
        exact ih

theorem mlookup_minsert_self {β : Type} (m : List (Nat × β)) (k : Nat) (v : β) :
    mlookup (minsert k v m) k = some v := by
  simp [minsert, mlookup]

theorem mlookup_minsert_ne {β : Type} (m : List (Nat × β)) (k key : Nat) (v : β)
    (h : key ≠ k) : mlookup (minsert k v m) key = mlookup m key := by
  simp only [minsert, mlookup, if_neg h]
  exact mlookup_filter_ne m k key h

theorem mlookup_merase_self {β : Type} (m : List (Nat × β)) (k : Nat) :
    mlookup (merase k m) k = none := by
  induction m with
  | nil => rfl
  | cons p rest ih =>
    by_cases hp : p.1 = k
    · have : (decide (p.1 ≠ k)) = false := by simp [hp]
      simpa [merase, List.filter, this] using ih
    · have : (decide (p.1 ≠ k)) = true := by simp [hp]
      have hk : k ≠ p.1 := fun hh => hp hh.symm
      simpa [merase, List.filter, this, mlookup, hk] using ih

theorem mlookup_merase_ne {β : Type} (m : List (Nat × β)) (k key : Nat) (h : key ≠ k) :
    mlookup (merase k m) key = mlookup m key :=
  mlookup_filter_ne m k key h

theorem mkeysNodup_filter {β : Type} (m : List (Nat × β)) (k : Nat)
    (h : mkeysNodup m) : mkeysNodup (m.filter (fun p => p.1 ≠ k)) := by
  unfold mkeysNodup at *
  induction m with
  | nil => simp [List.filter]
  | cons p rest ih =>
    simp only [List.map, List.nodup_cons] at h
    by_cases hp : p.1 = k
    · have : (decide (p.1 ≠ k)) = false := by simp [hp]
      simp only [List.filter, this]
      exact ih h.2
    · have : (decide (p.1 ≠ k)) = true := by simp [hp]
      simp only [List.filter, this, List.map, List.nodup_cons]
      refine ⟨fun hc => h.1 ?_, ih h.2⟩
      rcases List.mem_map.mp hc with ⟨q, hq, hqk⟩
      exact List.mem_map.mpr ⟨q, List.mem_of_mem_filter hq, hqk⟩

theorem mkeysNodup_minsert {β : Type} (m : List (Nat × β)) (k : Nat) (v : β)
    (h : mkeysNodup m) : mkeysNodup (minsert k v m) := by
  unfold mkeysNodup minsert
  simp only [List.map, List.nodup_cons]
  constructor
  · intro hc
    rcases List.mem_map.mp hc with ⟨q, hq, hqk⟩
    have := List.of_mem_filter hq
    simp only [decide_eq_true_eq] at this
    exact this hqk
  · exact mkeysNodup_filter m k h

theorem mkeysNodup_merase {β : Type} (m : List (Nat × β)) (k : Nat)
    (h : mkeysNodup m) : mkeysNodup (merase k m) :=
  mkeysNodup_filter m k h

/-- Under distinct keys, list membership agrees with `mlookup`. -/
theorem mem_iff_mlookup {β : Type} (m : List (Nat × β)) (h : mkeysNodup m)
    (k : Nat) (v : β) : (k, v) ∈ m ↔ mlookup m k = some v := by
  induction m with
  | nil => simp [mlookup]
  | cons p rest ih =>
    simp only [mkeysNodup, List.map, List.nodup_cons] at h
    constructor
    · intro hm
      rcases List.mem_cons.mp hm with heq | htl
      · rw [← heq]
        simp [mlookup]
      · have hk : k ≠ p.1 := by
          intro hk
          apply h.1
          exact List.mem_map.mpr ⟨(k, v), htl, hk⟩
        simp only [mlookup, if_neg hk]
        exact (ih h.2).mp htl
    · intro hl
      simp only [mlookup] at hl
      by_cases hk : k = p.1
      · rw [if_pos hk] at hl
        have : p = (k, v) := by
          cases p with
          | mk a b =>
            simp only at hk hl
            injection hl with hv
            rw [hk, hv]
        rw [this] at *
        exact List.mem_cons_self _ _
      · rw [if_neg hk] at hl
        exact List.mem_cons_of_mem _ ((ih h.2).mpr hl)

/-! ## geo.py: Volume4 and its operations -/

/-- A 4-D volume (`geo.Volume4`).  `cells` is the set of S2 cell ids at the
configured level covering the horizontal footprint (level is uniform —
`min_s2_level = max_s2_level` — so cell-set operations are exact). -/
structure Volume4 where
  time_start : Option Int
  time_end : Option Int
  altitude_lo : Option Int
  altitude_hi : Option Int
  cells : Finset Nat
deriving DecidableEq

/-- Python `x < y` on optional ordered values: comparing `None` with anything
raises `TypeError`. -/
def cmpLt : Option Int → Option Int → Except DssError Bool
  | some a, some b => .ok (a < b)
  | _, _ => .error .typeError

/-- Python `x > y` on optional ordered values. -/
def cmpGt : Option Int → Option Int → Except DssError Bool
  | some a, some b => .ok (a > b)
  | _, _ => .error .typeError

/-- `Volume4.contains` (geo.py lines 39-48).  The source evaluates
`other.altitude_lo < self.altitude_lo or other.altitude_hi > self.altitude_hi
or other.time_start < self.time_start or other.time_end > self.time_end`
left to right with short-circuiting; a comparison involving `None` raises
`TypeError`.  The final `CellUnion` containment check is exact cell-set
inclusion because all cells are at one fixed S2 level. -/
def Volume4.contains (self other : Volume4) : Except DssError Bool := do
  if ← cmpLt other.altitude_lo self.altitude_lo then return false
  if ← cmpGt other.altitude_hi self.altitude_hi then return false
  if ← cmpLt other.time_start self.time_start then return false
  if ← cmpGt other.time_end self.time_end then return false
  return decide (other.cells ⊆ self.cells)

/-- `geo.overlaps_time_altitude` (geo.py lines 87-96).  Each guard first tests
whether the `area_of_interest` endpoint is present (`is not None`) and only
then compares; a present endpoint compared against an absent `vol4` endpoint
raises `TypeError`. -/
def overlaps_time_altitude (area_of_interest vol4 : Volume4) : Except DssError Bool := do
  match area_of_interest.time_start with
  | some ts => if ← cmpLt vol4.time_end (some ts) then return false
  | none => pure ()
  match area_of_interest.time_end with
  | some te => if ← cmpGt vol4.time_start (some te) then return false
  | none => pure ()
  match area_of_interest.altitude_lo with
  | some lo => if ← cmpLt vol4.altitude_hi (some lo) then return false
  | none => pure ()
  match area_of_interest.altitude_hi with
  | some hi => if ← cmpGt vol4.altitude_lo (some hi) then return false
  | none => pure ()
  return true

/-- One iteration of the `geo.combine_volume4s` loop for a subsequent volume
(geo.py lines 56-61): each of the four endpoint comparisons is evaluated
unconditionally, so an absent endpoint on either side raises `TypeError`. -/
def combineStep (union vol4 : Volume4) : Except DssError Volume4 := do
  let ts := if ← cmpLt vol4.time_start union.time_start then vol4.time_start else union.time_start
  let te := if ← cmpGt vol4.time_end union.time_end then vol4.time_end else union.time_end
  let lo := if ← cmpLt vol4.altitude_lo union.altitude_lo then vol4.altitude_lo else union.altitude_lo
  let hi := if ← cmpGt vol4.altitude_hi union.altitude_hi then vol4.altitude_hi else union.altitude_hi
  return ⟨ts, te, lo, hi, union.cells ∪ vol4.cells⟩

/-- `geo.combine_volume4s` on a non-empty list (the only way the endpoints call
it; on an empty list the source returns `None`).  The first volume seeds the
envelope (its cells copied), each later volume widens it. -/
def combine_volume4s (first : Volume4) (rest : List Volume4) : Except DssError Volume4 :=
  rest.foldlM combineStep first

/-- `overlaps_time_altitude` as the specification describes it: closed-interval
intersection on the time and altitude axes, an absent endpoint meaning -∞ (for
a start/lower bound) or +∞ (for an end/upper bound).  Modelled from the spec
for comparison with the source function. -/
def overlapsSpec (a b : Volume4) : Bool :=
  let startLe : Option Int → Option Int → Bool := fun s e =>
    match s, e with
    | some x, some y => x ≤ y
    | _, _ => true
  startLe a.time_start b.time_end && startLe b.time_start a.time_end &&
    startLe a.altitude_lo b.altitude_hi && startLe b.altitude_lo a.altitude_hi

/-! ## subscriptions.py and operations.py: data structures -/

/-- `subscriptions.Subscription`.  `notify_for_constraints` is an
`Option Bool` because `PutOperation` stores the raw
`json['new_subscription'].get('notify_for_constraints')`, which is `None`
when the field is missing. -/
structure Subscription where
  id : Nat
  owner : Nat
  version : Int
  notification_index : Int
  vol4 : Volume4
  uss_base_url : Nat
  notify_for_operations : Bool
  notify_for_constraints : Option Bool
  implicit_subscription : Bool
  dependent_operations : Finset Nat
deriving DecidableEq

/-- `operations.Operation`.  `ovn` is the opaque string from `make_ovn()`,
embedded as a `Nat` chosen by the caller of the endpoint model. -/
structure Operation where
  id : Nat
  owner : Nat
  version : Int
  ovn : Nat
  vol4 : Volume4
  uss_base_url : Nat
  subscription : Nat
deriving DecidableEq

/-- The serialized operation reference (`Operation.to_dict`).  The source
formats `vol4.time_start`/`time_end` through `format_ts`; the raw optional
instants are kept here (`format_ts(None)` prints the current time, a quirk
not relevant to any claim). -/
structure OperationRef where
  id : Nat
  owner : Nat
  version : Int
  time_start : Option Int
  time_end : Option Int
  uss_base_url : Nat
  subscription_id : Nat
  ovn : Option Nat
deriving DecidableEq

/-- `Operation.to_dict(include_ovn)`: the `ovn` key is present iff
`include_ovn`. -/
def Operation.to_dict (op : Operation) (include_ovn : Bool) : OperationRef :=
  { id := op.id
    owner := op.owner
    version := op.version
    time_start := op.vol4.time_start
    time_end := op.vol4.time_end
    uss_base_url := op.uss_base_url
    subscription_id := op.subscription
    ovn := if include_ovn then some op.ovn else none }

/-- A request body for `PUT /dss/v1/subscriptions/{id}`, after JSON parsing.
`extents` is the result of `geo.expand_volume4` on the `extents` member
(`none` when the member is missing); `old_version`/`uss_base_url` etc. are the
corresponding optional JSON fields. -/
structure SubscriptionRequest where
  old_version : Option Int
  uss_base_url : Option Nat
  extents : Option Volume4
  notify_for_operations : Option Bool
  notify_for_constraints : Option Bool
deriving DecidableEq

/-- Body of `subscriptions.from_request` after the version checks
(subscriptions.py lines 83-104): required fields, `time_start` defaulted to
"now", carry-over of `notification_index` and `dependent_operations`,
`implicit_subscription` forced to false, and `version = old_version + 1`. -/
def Subscription.fromRequestChecked (id : Nat) (req : SubscriptionRequest) (owner : Nat)
    (existing_subscription : Option Subscription) (now : Int) :
    Except DssError Subscription :=
  if req.uss_base_url = none then .error .valueError
  else
    match req.extents with
    | none => .error .valueError
    | some vol4p =>
      let vol4 := if vol4p.time_start = none then { vol4p with time_start := some now } else vol4p
      .ok { id := id
            owner := owner
            version := req.old_version.getD 0 + 1
            notification_index :=
              match existing_subscription with
              | none => 0
              | some existing => existing.notification_index
            vol4 := vol4
            uss_base_url := req.uss_base_url.getD 0
            notify_for_operations := req.notify_for_operations.getD false
            notify_for_constraints := some (req.notify_for_constraints.getD false)
            implicit_subscription := false
            dependent_operations :=
              match existing_subscription with
              | none => ∅
              | some existing => existing.dependent_operations }

/-- `subscriptions.from_request` (subscriptions.py lines 69-104): the
`old_version` checks (`ValueError` on a missing or mismatched version for an
update, or a non-zero version for a creation), then the body above. -/
def Subscription.from_request (id : Nat) (req : SubscriptionRequest) (owner : Nat)
    (existing_subscription : Option Subscription) (now : Int) :
    Except DssError Subscription :=
  match existing_subscription with
  | some existing =>
    if req.old_version = none then .error .valueError
    else if req.old_version ≠ some existing.version then .error .valueError
    else Subscription.fromRequestChecked id req owner existing_subscription now
  | none =>
    if req.old_version.getD 0 ≠ 0 then .error .valueError
    else Subscription.fromRequestChecked id req owner existing_subscription now

/-- The `new_subscription` block of an operation PUT request.  `uss_base_url`
is `none` when missing or empty (the source checks `if not uss_base_url`). -/
structure NewSubscriptionRequest where
  uss_base_url : Option Nat
  notify_for_constraints : Option Bool
deriving DecidableEq

/-- A request body for `PUT /dss/v1/operations/{id}`, after JSON parsing.
`extents` is the list of parsed `Volume4`s; the empty list stands for a
missing or empty `extents` member (the source checks `if not vol4s_json`). -/
structure OperationRequest where
  extents : List Volume4
  old_version : Option Int
  uss_base_url : Option Nat
  subscription_id : Option Nat
  new_subscription : Option NewSubscriptionRequest
deriving DecidableEq

/-- Body of `operations.from_request` after the version checks (operations.py
lines 71-93): required `uss_base_url`, the four bounded-envelope checks, then
`version = old_version + 1` and a fresh OVN (supplied by the caller, standing
for `make_ovn()`). -/
def Operation.fromRequestChecked (id : Nat) (req : OperationRequest) (owner : Nat)
    (subscription_id : Nat) (extents : Volume4) (ovn : Nat) :
    Except DssError Operation :=
  if req.uss_base_url = none then .error .valueError
  else if extents.time_start = none then .error .valueError
  else if extents.time_end = none then .error .valueError
  else if extents.altitude_lo = none then .error .valueError
  else if extents.altitude_hi = none then .error .valueError
  else
    .ok { id := id
          owner := owner
          version := req.old_version.getD 0 + 1
          ovn := ovn
          vol4 := extents
          uss_base_url := req.uss_base_url.getD 0
          subscription := subscription_id }

/-- `operations.from_request` (operations.py lines 54-93): the `old_version`
checks, then the body above. -/
def Operation.from_request (id : Nat) (req : OperationRequest) (owner : Nat)
    (subscription_id : Nat) (existing_operation : Option Operation)
    (extents : Volume4) (ovn : Nat) : Except DssError Operation :=
  match existing_operation with
  | some existing =>
    if req.old_version = none then .error .valueError
    else if req.old_version ≠ some existing.version then .error .valueError
    else Operation.fromRequestChecked id req owner subscription_id extents ovn
  | none =>
    if req.old_version.getD 0 ≠ 0 then .error .valueError
    else Operation.fromRequestChecked id req owner subscription_id extents ovn

/-- One entry of the subscriber fan-out: `{subscription_id, notification_index}`. -/
structure SubscriberSubscription where
  subscription_id : Nat
  notification_index : Int
deriving DecidableEq

/-- One subscriber group: `{uss_base_url, subscriptions}`. -/
structure Subscriber where
  uss_base_url : Nat
  subscriptions : List SubscriberSubscription
deriving DecidableEq

/-- Helper for `get_subscribers`: append one subscription to its USS-base-URL
group, creating the group at the end when first seen (Python dict insertion
order). -/
def addSubscriberEntry (acc : List Subscriber) (sub : Subscription) : List Subscriber :=
  if acc.any (fun g => g.uss_base_url = sub.uss_base_url) then
    acc.map (fun g =>
      if g.uss_base_url = sub.uss_base_url then
        { g with subscriptions :=
            g.subscriptions ++ [⟨sub.id, sub.notification_index⟩] }
      else g)
  else
    acc ++ [⟨sub.uss_base_url, [⟨sub.id, sub.notification_index⟩]⟩]

/-- `subscriptions.get_subscribers` (subscriptions.py lines 107-119): group the
given subscriptions by `uss_base_url`, each carrying its current
`notification_index`.  The function only reads `notification_index`. -/
def get_subscribers (subs : List Subscription) : List Subscriber :=
  subs.foldl addSubscriberEntry []

/-- All subscription ids mentioned in a fan-out. -/
def subscriberIds (subscribers : List Subscriber) : List Nat :=
  (subscribers.map (fun g => g.subscriptions.map (·.subscription_id))).flatten

/-- A canonical, kernel-computable iteration order for a finite cell set (the
Python `for cell in <set>` loops; the order never affects the results).  Uses
insertion sort so that concrete instances evaluate by `decide`. -/
def sortedCells (s : Finset Nat) : List Nat :=
  Quot.liftOn s.val (List.insertionSort (· ≤ ·)) (fun a b h =>
    List.eq_of_perm_of_sorted
      ((List.perm_insertionSort _ a).trans ((Quotient.exact (Quot.sound h)).trans
        (List.perm_insertionSort _ b).symm))
      (List.sorted_insertionSort _ a) (List.sorted_insertionSort _ b))

/-! ## memory_storage.py: the in-memory reference store -/

/-- `memory_storage._CellContents`: the two id sets of one S2 cell bucket. -/
structure CellContents where
  subscription_ids : Finset Nat
  operation_ids : Finset Nat
deriving DecidableEq

/-- `_CellContents.is_empty`. -/
def CellContents.is_empty (c : CellContents) : Bool :=
  decide (c.subscription_ids = ∅) && decide (c.operation_ids = ∅)

/-- `memory_storage.MemoryScdStorage`: entity maps plus the cell index. -/
structure MemoryScdStorage where
  subscriptions : List (Nat × Subscription)
  operations : List (Nat × Operation)
  cells : List (Nat × CellContents)
deriving DecidableEq

/-- The empty store (`MemoryScdStorage.__init__`). -/
def MemoryScdStorage.empty : MemoryScdStorage := ⟨[], [], []⟩

/-- One cell of `_remove_subscription_from_cells`: drop `id` from the cell's
subscription bucket and evict the bucket when it becomes empty.  The source
collects empty cells and deletes them after the loop; the iterated cells are
pairwise distinct (a set), so per-cell eviction yields the same map.  When the
cell is absent the source would raise `KeyError`; under the cell-index
invariant proved below this cannot happen, and the embedding leaves the map
unchanged in that case. -/
def removeSubCell (id : Nat) (m : List (Nat × CellContents)) (cell : Nat) :
    List (Nat × CellContents) :=
  match mlookup m cell with
  | none => m
  | some bucket =>
    let bucket' := { bucket with subscription_ids := bucket.subscription_ids.erase id }
    if bucket'.is_empty then merase cell m else minsert cell bucket' m

/-- Same for operation buckets (`_remove_operation_from_cells`). -/
def removeOpCell (id : Nat) (m : List (Nat × CellContents)) (cell : Nat) :
    List (Nat × CellContents) :=
  match mlookup m cell with
  | none => m
  | some bucket =>
    let bucket' := { bucket with operation_ids := bucket.operation_ids.erase id }
    if bucket'.is_empty then merase cell m else minsert cell bucket' m

/-- One cell of the insertion loop in `upsert_subscription`: create the bucket
when absent and add the id. -/
def addSubCell (id : Nat) (m : List (Nat × CellContents)) (cell : Nat) :
    List (Nat × CellContents) :=
  let bucket := (mlookup m cell).getD ⟨∅, ∅⟩
  minsert cell { bucket with subscription_ids := insert id bucket.subscription_ids } m

/-- One cell of the insertion loop in `upsert_operation`. -/
def addOpCell (id : Nat) (m : List (Nat × CellContents)) (cell : Nat) :
    List (Nat × CellContents) :=
  let bucket := (mlookup m cell).getD ⟨∅, ∅⟩
  minsert cell { bucket with operation_ids := insert id bucket.operation_ids } m

/-- `MemoryScdStorage._remove_subscription_from_cells`.  The Python `for cell
in subscription.vol4.cells` set iteration is determinized by sorting the
cells; the result does not depend on the order. -/
def removeSubscriptionFromCells (cells : List (Nat × CellContents))
    (subscription : Subscription) : List (Nat × CellContents) :=
  (sortedCells subscription.vol4.cells).foldl (removeSubCell subscription.id) cells

/-- `MemoryScdStorage._remove_operation_from_cells`. -/
def removeOperationFromCells (cells : List (Nat × CellContents))
    (operation : Operation) : List (Nat × CellContents) :=
  (sortedCells operation.vol4.cells).foldl (removeOpCell operation.id) cells

/-- `MemoryScdStorage.get_subscription`. -/
def MemoryScdStorage.get_subscription (s : MemoryScdStorage) (id : Nat) :
    Option Subscription :=
  mlookup s.subscriptions id

/-- `MemoryScdStorage.get_operation`. -/
def MemoryScdStorage.get_operation (s : MemoryScdStorage) (id : Nat) :
    Option Operation :=
  mlookup s.operations id

/-- `MemoryScdStorage.upsert_subscription` (memory_storage.py lines 47-55). -/
def MemoryScdStorage.upsert_subscription (s : MemoryScdStorage)
    (subscription : Subscription) : MemoryScdStorage :=
  let cells1 :=
    match mlookup s.subscriptions subscription.id with
    | some old_subscription => removeSubscriptionFromCells s.cells old_subscription
    | none => s.cells
  { subscriptions := minsert subscription.id subscription s.subscriptions
    operations := s.operations
    cells := (sortedCells subscription.vol4.cells).foldl
      (addSubCell subscription.id) cells1 }

/-- `MemoryScdStorage.upsert_operation` (memory_storage.py lines 88-96). -/
def MemoryScdStorage.upsert_operation (s : MemoryScdStorage)
    (operation : Operation) : MemoryScdStorage :=
  let cells1 :=
    match mlookup s.operations operation.id with
    | some old_operation => removeOperationFromCells s.cells old_operation
    | none => s.cells
  { subscriptions := s.subscriptions
    operations := minsert operation.id operation s.operations
    cells := (sortedCells operation.vol4.cells).foldl
      (addOpCell operation.id) cells1 }

/-- `MemoryScdStorage.delete_subscription`.  `self.subscriptions.pop(id)`
raises `KeyError` before mutating anything when the id is absent, so the store
is then unchanged (every endpoint checks existence first). -/
def MemoryScdStorage.delete_subscription (s : MemoryScdStorage) (id : Nat) :
    MemoryScdStorage :=
  match mlookup s.subscriptions id with
  | none => s
  | some subscription =>
    { subscriptions := merase id s.subscriptions
      operations := s.operations
      cells := removeSubscriptionFromCells s.cells subscription }

/-- `MemoryScdStorage.delete_operation`. -/
def MemoryScdStorage.delete_operation (s : MemoryScdStorage) (id : Nat) :
    MemoryScdStorage :=
  match mlookup s.operations id with
  | none => s
  | some operation =>
    { subscriptions := s.subscriptions
      operations := merase id s.operations
      cells := removeOperationFromCells s.cells operation }

/-- The candidate ids gathered by `find_subscriptions` (union of the
subscription buckets over the query's cells). -/
def candidateSubIds (s : MemoryScdStorage) (vol4 : Volume4) : Finset Nat :=
  (sortedCells vol4.cells).foldl (fun acc cell =>
    match mlookup s.cells cell with
    | some bucket => acc ∪ bucket.subscription_ids
    | none => acc) ∅

/-- The candidate ids gathered by `find_operations`. -/
def candidateOpIds (s : MemoryScdStorage) (vol4 : Volume4) : Finset Nat :=
  (sortedCells vol4.cells).foldl (fun acc cell =>
    match mlookup s.cells cell with
    | some bucket => acc ∪ bucket.operation_ids
    | none => acc) ∅

/-- One candidate of the `find_subscriptions` filter loop: the owner filter
short-circuits before `overlaps_time_altitude` (which can raise `TypeError`);
a dangling candidate id would raise `KeyError`. -/
def findSubStep (s : MemoryScdStorage) (vol4 : Volume4) (owner : Option Nat)
    (filtered : List Subscription) (sub_id : Nat) :
    Except DssError (List Subscription) := do
  match mlookup s.subscriptions sub_id with
  | none => throw .keyError
  | some sub =>
    if owner = none ∨ owner = some sub.owner then
      if ← overlaps_time_altitude vol4 sub.vol4 then
        pure (filtered ++ [sub])
      else
        pure filtered
    else
      pure filtered

/-- `MemoryScdStorage.find_subscriptions` (memory_storage.py lines 57-69).
The Python set iteration over the candidates is determinized by sorting. -/
def MemoryScdStorage.find_subscriptions (s : MemoryScdStorage) (vol4 : Volume4)
    (owner : Option Nat) : Except DssError (List Subscription) :=
  (sortedCells (candidateSubIds s vol4)).foldlM (findSubStep s vol4 owner) []

/-- One candidate of the `find_operations` filter loop. -/
def findOpStep (s : MemoryScdStorage) (vol4 : Volume4)
    (filtered : List Operation) (op_id : Nat) :
    Except DssError (List Operation) := do
  match mlookup s.operations op_id with
  | none => throw .keyError
  | some op =>
    if ← overlaps_time_altitude vol4 op.vol4 then
      pure (filtered ++ [op])
    else
      pure filtered

/-- `MemoryScdStorage.find_operations` (memory_storage.py lines 98-110). -/
def MemoryScdStorage.find_operations (s : MemoryScdStorage) (vol4 : Volume4) :
    Except DssError (List Operation) :=
  (sortedCells (candidateOpIds s vol4)).foldlM (findOpStep s vol4) []

/-- Propagate an exception, apply `f` to a success (the Python control flow
from a fallible call to the end of a handler). -/
def exceptMap {ε α β : Type} (f : α → β) : Except ε α → Except ε β
  | .error e => .error e
  | .ok a => .ok (f a)

/-! ## Endpoint handlers

Each handler takes the current store and the already-authenticated caller
identity (`flask.request.jwt.client_id`) plus the parsed request body, and
returns the store after the call next to the `Except` outcome.  JSON-shape
parsing of volumes (`geo.expand_volume4`) happens before any store access in
the source and is modelled separately; the handlers here receive parsed
`Volume4` values.  The whole handler runs under the single store lock, so a
handler invocation is one atomic step of the store. -/

/-- The serialized subscription (`Subscription.to_dict`); raw optional
instants as in `OperationRef`. -/
structure SubscriptionRef where
  id : Nat
  version : Int
  notification_index : Int
  time_start : Option Int
  time_end : Option Int
  uss_base_url : Nat
  notify_for_operations : Bool
  notify_for_constraints : Option Bool
  implicit_subscription : Bool
  dependent_operations : Finset Nat
deriving DecidableEq

/-- `Subscription.to_dict` (subscriptions.py lines 54-66). -/
def Subscription.to_dict (sub : Subscription) : SubscriptionRef :=
  { id := sub.id
    version := sub.version
    notification_index := sub.notification_index
    time_start := sub.vol4.time_start
    time_end := sub.vol4.time_end
    uss_base_url := sub.uss_base_url
    notify_for_operations := sub.notify_for_operations
    notify_for_constraints := sub.notify_for_constraints
    implicit_subscription := sub.implicit_subscription
    dependent_operations := sub.dependent_operations }

/-- `existing is not None and existing.owner != caller` for subscriptions. -/
def ownerMismatchSub : Option Subscription → Nat → Bool
  | some existing, caller => existing.owner != caller
  | none, _ => false

/-- `existing is not None and existing.owner != caller` for operations. -/
def ownerMismatchOp : Option Operation → Nat → Bool
  | some existing, caller => existing.owner != caller
  | none, _ => false

/-- Body of `PutSubscription` after the ownership guard
(subscription_endpoints.py lines 50-61): build the new record, apply the
endpoint's extra `version += 1`, upsert, respond (200 on mutate, 201 on
create).  The `operations`/`constraints` response arrays are the source's
hard-coded empty lists and are omitted here. -/
def putSubscriptionChecked (s : MemoryScdStorage) (id caller : Nat)
    (req : SubscriptionRequest) (now : Int) (existing_subscription : Option Subscription) :
    MemoryScdStorage × Except DssError (SubscriptionRef × Nat) :=
  match Subscription.from_request id req caller existing_subscription now with
  | .error e => (s, .error e)
  | .ok new_subscription0 =>
    let new_subscription := { new_subscription0 with version := new_subscription0.version + 1 }
    (s.upsert_subscription new_subscription,
     .ok (new_subscription.to_dict, if existing_subscription.isSome then 200 else 201))

/-- `PUT /dss/v1/subscriptions/{id}` (subscription_endpoints.py lines 43-61). -/
def PutSubscription (s : MemoryScdStorage) (id caller : Nat)
    (req : SubscriptionRequest) (now : Int) :
    MemoryScdStorage × Except DssError (SubscriptionRef × Nat) :=
  let existing_subscription := s.get_subscription id
  if ownerMismatchSub existing_subscription caller then
    (s, .error .notOwnedError)
  else
    putSubscriptionChecked s id caller req now existing_subscription

/-- `DELETE /dss/v1/subscriptions/{id}` (subscription_endpoints.py lines
63-74).  There is no check on `dependent_operations`. -/
def DeleteSubscription (s : MemoryScdStorage) (id caller : Nat) :
    MemoryScdStorage × Except DssError SubscriptionRef :=
  match s.get_subscription id with
  | none => (s, .error .notFoundError)
  | some old_subscription =>
    if old_subscription.owner != caller then
      (s, .error .notOwnedError)
    else
      (s.delete_subscription id, .ok old_subscription.to_dict)

/-- `GET /dss/v1/operations/{id}` (operation_endpoints.py lines 34-43):
`include_ovn` iff the caller is the owner. -/
def GetOperation (s : MemoryScdStorage) (id caller : Nat) :
    Except DssError OperationRef :=
  match s.get_operation id with
  | some operation => .ok (operation.to_dict (caller == operation.owner))
  | none => .error .notFoundError

/-- `POST /dss/v1/operations/query` (operation_endpoints.py lines 17-31) from
the parsed `area_of_interest` on: each reference reveals its OVN iff the
caller owns that operation.  Read-only. -/
def QueryOperations (s : MemoryScdStorage) (caller : Nat) (vol4 : Volume4) :
    Except DssError (List OperationRef) := do
  let found ← s.find_operations vol4
  return found.map (fun operation => operation.to_dict (operation.owner == caller))

/-- Tail of `PutOperation` (operation_endpoints.py lines 85-96): build the new
operation (with the endpoint's extra `version += 1`), persist operation and
subscription, compute the fan-out, respond. -/
def putOperationFinish (s1 : MemoryScdStorage) (id caller : Nat)
    (req : OperationRequest) (ovn : Nat) (vol4 : Volume4)
    (existing_operation : Option Operation) (sub : Subscription) :
    MemoryScdStorage × Except DssError (OperationRef × List Subscriber × Nat) :=
  match Operation.from_request id req caller sub.id existing_operation vol4 ovn with
  | .error e => (s1, .error e)
  | .ok new_operation0 =>
    let new_operation := { new_operation0 with version := new_operation0.version + 1 }
    let s2 := s1.upsert_operation new_operation
    let s3 := s2.upsert_subscription sub
    (s3, exceptMap (fun found =>
      (new_operation.to_dict true, get_subscribers found,
       if existing_operation.isSome then 200 else 201))
      (s3.find_subscriptions vol4 none))

/-- Subscription resolution of `PutOperation` (operation_endpoints.py lines
67-83).  On the `subscription_id` branch the source mutates the *stored*
subscription object in place (`sub.dependent_operations.add`,
`sub.version += 1`) *before* the containment check, so the mutation is in the
store even when the check fails; the embedding writes the mutated record back
at that exact point.  On the `new_subscription` branch a fresh id
(`uuid.uuid4()`) is supplied by the caller as `freshSubId`. -/
def putOperationResolved (s : MemoryScdStorage) (id caller : Nat)
    (req : OperationRequest) (freshSubId ovn : Nat) (vol4 : Volume4)
    (existing_operation : Option Operation) :
    MemoryScdStorage × Except DssError (OperationRef × List Subscriber × Nat) :=
  match req.subscription_id with
  | some subscription_id =>
    match mlookup s.subscriptions subscription_id with
    | none => (s, .error .valueError)
    | some sub0 =>
      let sub := { sub0 with
        dependent_operations := insert id sub0.dependent_operations
        version := sub0.version + 1 }
      let s1 := { s with subscriptions := minsert subscription_id sub s.subscriptions }
      match Volume4.contains sub.vol4 vol4 with
      | .error e => (s1, .error e)
      | .ok false => (s1, .error .valueError)
      | .ok true => putOperationFinish s1 id caller req ovn vol4 existing_operation sub
  | none =>
    match req.new_subscription with
    | none => (s, .error .valueError)
    | some ns =>
      match ns.uss_base_url with
      | none => (s, .error .valueError)
      | some uss_base_url =>
        let sub : Subscription :=
          { id := freshSubId
            owner := caller
            version := 1
            notification_index := 0
            vol4 := vol4
            uss_base_url := uss_base_url
            notify_for_operations := true
            notify_for_constraints := ns.notify_for_constraints
            implicit_subscription := true
            dependent_operations := {id} }
        putOperationFinish s id caller req ovn vol4 existing_operation sub

/-- `PUT /dss/v1/operations/{id}` (operation_endpoints.py lines 46-96). -/
def PutOperation (s : MemoryScdStorage) (id caller : Nat) (req : OperationRequest)
    (freshSubId ovn : Nat) :
    MemoryScdStorage × Except DssError (OperationRef × List Subscriber × Nat) :=
  match req.extents with
  | [] => (s, .error .valueError)
  | v :: vs =>
    match combine_volume4s v vs with
    | .error e => (s, .error e)
    | .ok vol4 =>
      if ownerMismatchOp (s.get_operation id) caller then
        (s, .error .notOwnedError)
      else
        putOperationResolved s id caller req freshSubId ovn vol4 (s.get_operation id)

/-- `DELETE /dss/v1/operations/{id}` (operation_endpoints.py lines 98-122).
The operation is deleted first; the bound subscription is then loaded (an
absent subscription would raise `AttributeError` on `None`, an id missing from
`dependent_operations` would raise `KeyError` from `set.remove` — both after
the operation was already deleted). -/
def DeleteOperation (s : MemoryScdStorage) (id caller : Nat) :
    MemoryScdStorage × Except DssError (OperationRef × List Subscriber) :=
  match s.get_operation id with
  | none => (s, .error .notFoundError)
  | some old_operation =>
    if old_operation.owner != caller then
      (s, .error .notOwnedError)
    else
      let s1 := s.delete_operation id
      match mlookup s1.subscriptions old_operation.subscription with
      | none => (s1, .error .attributeError)
      | some sub =>
        if id ∈ sub.dependent_operations then
          let sub1 := { sub with dependent_operations := sub.dependent_operations.erase id }
          let s2 := { s1 with
            subscriptions := minsert old_operation.subscription sub1 s1.subscriptions }
          let s3 :=
            if sub1.implicit_subscription && decide (sub1.dependent_operations = ∅) then
              s2.delete_subscription sub1.id
            else
              s2.upsert_subscription { sub1 with version := sub1.version + 1 }
          (s3, exceptMap (fun found => (old_operation.to_dict true, get_subscribers found))
            (s3.find_subscriptions old_operation.vol4 none))
        else
          (s1, .error .keyError)

/-! ## Helper lemmas about the request constructors -/

theorem opFromRequestChecked_ok {id : Nat} {req : OperationRequest}
    {owner subscription_id : Nat} {extents : Volume4} {ovn : Nat} {op : Operation}
    (h : Operation.fromRequestChecked id req owner subscription_id extents ovn = .ok op) :
    op = { id := id, owner := owner, version := req.old_version.getD 0 + 1, ovn := ovn,
           vol4 := extents, uss_base_url := req.uss_base_url.getD 0,
           subscription := subscription_id } ∧
    extents.time_start ≠ none ∧ extents.time_end ≠ none ∧
    extents.altitude_lo ≠ none ∧ extents.altitude_hi ≠ none := by
  unfold Operation.fromRequestChecked at h
  by_cases h1 : req.uss_base_url = none
  · rw [if_pos h1] at h; simp at h
  rw [if_neg h1] at h
  by_cases h2 : extents.time_start = none
  · rw [if_pos h2] at h; simp at h
  rw [if_neg h2] at h
  by_cases h3 : extents.time_end = none
  · rw [if_pos h3] at h; simp at h
  rw [if_neg h3] at h
  by_cases h4 : extents.altitude_lo = none
  · rw [if_pos h4] at h; simp at h
  rw [if_neg h4] at h
  by_cases h5 : extents.altitude_hi = none
  · rw [if_pos h5] at h; simp at h
  rw [if_neg h5] at h
  injection h with h
  exact ⟨h.symm, h2, h3, h4, h5⟩

theorem opFromRequest_ok {id : Nat} {req : OperationRequest}
    {owner subscription_id : Nat} {existing : Option Operation} {extents : Volume4}
    {ovn : Nat} {op : Operation}
    (h : Operation.from_request id req owner subscription_id existing extents ovn = .ok op) :
    op = { id := id, owner := owner, version := req.old_version.getD 0 + 1, ovn := ovn,
           vol4 := extents, uss_base_url := req.uss_base_url.getD 0,
           subscription := subscription_id } ∧
    extents.time_start ≠ none ∧ extents.time_end ≠ none ∧
    extents.altitude_lo ≠ none ∧ extents.altitude_hi ≠ none ∧
    (∀ e, existing = some e → req.old_version = some e.version) ∧
    (existing = none → req.old_version.getD 0 = 0) := by
  cases existing with
  | some e =>
    simp only [Operation.from_request] at h
    by_cases h1 : req.old_version = none
    · rw [if_pos h1] at h; simp at h
    rw [if_neg h1] at h
    by_cases h2 : req.old_version ≠ some e.version
    · rw [if_pos h2] at h; simp at h
    rw [if_neg h2] at h
    push_neg at h2
    rcases opFromRequestChecked_ok h with ⟨ha, hb, hc, hd, he⟩
    refine ⟨ha, hb, hc, hd, he, ?_, fun hc2 => Option.noConfusion hc2⟩
    intro e2 he2
    injection he2 with he2
    rw [← he2]
    exact h2
  | none =>
    simp only [Operation.from_request] at h
    by_cases h1 : req.old_version.getD 0 ≠ 0
    · rw [if_pos h1] at h; simp at h
    rw [if_neg h1] at h
    push_neg at h1
    rcases opFromRequestChecked_ok h with ⟨ha, hb, hc, hd, he⟩
    exact ⟨ha, hb, hc, hd, he, fun e2 he2 => Option.noConfusion he2, fun _ => h1⟩

theorem subFromRequestChecked_ok {id : Nat} {req : SubscriptionRequest}
    {owner : Nat} {existing : Option Subscription} {now : Int} {sub : Subscription}
    (h : Subscription.fromRequestChecked id req owner existing now = .ok sub) :
    sub.id = id ∧ sub.owner = owner ∧ sub.version = req.old_version.getD 0 + 1 ∧
    sub.implicit_subscription = false ∧
    (∀ e, existing = some e →
      sub.dependent_operations = e.dependent_operations ∧
      sub.notification_index = e.notification_index) ∧
    (existing = none →
      sub.dependent_operations = ∅ ∧ sub.notification_index = 0) := by
  unfold Subscription.fromRequestChecked at h
  by_cases h1 : req.uss_base_url = none
  · rw [if_pos h1] at h; simp at h
  rw [if_neg h1] at h
  cases hx : req.extents with
  | none => rw [hx] at h; simp at h
  | some vol4p =>
    rw [hx] at h
    injection h with h
    subst h
    refine ⟨rfl, rfl, rfl, rfl, ?_, ?_⟩
    · intro e he
      subst he
      exact ⟨rfl, rfl⟩
    · intro he
      subst he
      exact ⟨rfl, rfl⟩

theorem subFromRequest_ok {id : Nat} {req : SubscriptionRequest}
    {owner : Nat} {existing : Option Subscription} {now : Int} {sub : Subscription}
    (h : Subscription.from_request id req owner existing now = .ok sub) :
    sub.id = id ∧ sub.owner = owner ∧ sub.version = req.old_version.getD 0 + 1 ∧
    sub.implicit_subscription = false ∧
    (∀ e, existing = some e →
      sub.dependent_operations = e.dependent_operations ∧
      sub.notification_index = e.notification_index ∧
      req.old_version = some e.version) ∧
    (existing = none →
      sub.dependent_operations = ∅ ∧ sub.notification_index = 0 ∧
      req.old_version.getD 0 = 0) := by
  cases existing with
  | some e =>
    simp only [Subscription.from_request] at h
    by_cases h1 : req.old_version = none
    · rw [if_pos h1] at h; simp at h
    rw [if_neg h1] at h
    by_cases h2 : req.old_version ≠ some e.version
    · rw [if_pos h2] at h; simp at h
    rw [if_neg h2] at h
    push_neg at h2
    rcases subFromRequestChecked_ok h with ⟨ha, hb, hc, hd, he, _⟩
    refine ⟨ha, hb, hc, hd, ?_, fun hc2 => Option.noConfusion hc2⟩
    intro e2 he2
    rcases he e2 he2 with ⟨hd1, hd2⟩
    injection he2 with he2
    subst he2
    exact ⟨hd1, hd2, h2⟩
  | none =>
    simp only [Subscription.from_request] at h
    by_cases h1 : req.old_version.getD 0 ≠ 0
    · rw [if_pos h1] at h; simp at h
    rw [if_neg h1] at h
    push_neg at h1
    rcases subFromRequestChecked_ok h with ⟨ha, hb, hc, hd, _, hf⟩
    refine ⟨ha, hb, hc, hd, fun e2 he2 => Option.noConfusion he2, ?_⟩
    intro _
    rcases hf rfl with ⟨hf1, hf2⟩
    exact ⟨hf1, hf2, h1⟩

/-! ## geo.expand_volume4: JSON shape validation

The inbound `extents` JSON is embedded as typed optional fields; the string
constants the source compares against (`'Feature'`, `'Point'`, `'Polygon'`,
`'M'`, `'W84'`, `'RFC3339'`) become small enumerations with an `other`
constructor for any different value.  Latitudes, longitudes and radii are
embedded as `Rat` (Python floats used only through order comparisons).  The
s2sphere coverage computation (`RegionCoverer` over a spherical cap or the
polygon's bounding `LatLngRect`) is an external library call and is abstracted
as the `circleCover`/`polygonCover` parameters; every theorem below holds for
all coverage functions. -/

inductive GeoJsonType where
  | Feature
  | Point
  | Polygon
  | other
deriving DecidableEq

inductive LengthUnits where
  | M
  | other
deriving DecidableEq

inductive AltitudeReference where
  | W84
  | other
deriving DecidableEq

inductive TimeFormat where
  | RFC3339
  | other
deriving DecidableEq

/-- `{reference, units, value}` altitude object. -/
structure AltitudeJson where
  reference : Option AltitudeReference
  units : Option LengthUnits
  value : Option Int
deriving DecidableEq

/-- `{format, value}` time object; `value` is the already-parsed instant. -/
structure TimeJson where
  format : Option TimeFormat
  value : Int
deriving DecidableEq

/-- `geo._get_altitude` (geo.py lines 65-74). -/
def getAltitude : Option AltitudeJson → Except DssError (Option Int)
  | none => .ok none
  | some alt_json =>
    if alt_json.reference ≠ some .W84 then .error .valueError
    else if alt_json.units ≠ some .M then .error .valueError
    else .ok alt_json.value

/-- `geo._get_time` (geo.py lines 77-84). -/
def getTime : Option TimeJson → Except DssError (Option Int)
  | none => .ok none
  | some time_json =>
    if time_json.format ≠ some .RFC3339 then .error .valueError
    else .ok (some time_json.value)

/-- The `radius` property of an `outline_circle`. -/
structure RadiusJson where
  units : Option LengthUnits
  value : Option Rat
deriving DecidableEq

/-- The `properties` member of an `outline_circle`. -/
structure PropertiesJson where
  radius : Option RadiusJson
deriving DecidableEq

/-- The `geometry` member of an `outline_circle`; `coordinates` is the raw
`[lng, lat]` list (an absent member is the source's `get(..., [])` default,
embedded as `[]`). -/
structure GeometryJson where
  type : Option GeoJsonType
  coordinates : List Rat
deriving DecidableEq

/-- An `outline_circle` Feature.  `is_valid` stands for the geojson library's
validity verdict on the raw JSON. -/
structure CircleJson where
  is_valid : Bool
  type : Option GeoJsonType
  geometry : Option GeometryJson
  properties : Option PropertiesJson
deriving DecidableEq

/-- An `outline_polygon`; `coordinates` is the list of rings, each ring a list
of `(lng, lat)` coordinate pairs. -/
structure PolygonJson where
  is_valid : Bool
  type : Option GeoJsonType
  coordinates : List (List (Rat × Rat))
deriving DecidableEq

/-- The `volume` member of a Volume4 JSON object. -/
structure Volume3Json where
  outline_circle : Option CircleJson
  outline_polygon : Option PolygonJson
  altitude_lower : Option AltitudeJson
  altitude_upper : Option AltitudeJson
deriving DecidableEq

/-- A Volume4 JSON object as received in `extents`/`area_of_interest`. -/
structure Volume4Json where
  volume : Option Volume3Json
  time_start : Option TimeJson
  time_end : Option TimeJson
deriving DecidableEq

/-- The `outline_circle` branch of `expand_volume4` (geo.py lines 112-150):
validity, Feature/Point types, a 2-element coordinate list, the
longitude/latitude range checks, then the radius object — whose `value` is
*not* range-checked (no `radius ≥ 0` test exists in the source). -/
def expandCircleCells (circleCover : Rat → Rat → Rat → Finset Nat)
    (circle : CircleJson) : Except DssError (Finset Nat) :=
  if circle.is_valid = false then .error .valueError
  else if circle.type ≠ some .Feature then .error .valueError
  else
    match circle.geometry with
    | none => .error .valueError
    | some geometry =>
      if geometry.type ≠ some .Point then .error .valueError
      else
        match geometry.coordinates with
        | [lng, lat] =>
          if lng < -180 ∨ lng > 180 then .error .valueError
          else if lat < -90 ∨ lat > 90 then .error .valueError
          else
            match circle.properties with
            | none => .error .valueError
            | some properties =>
              match properties.radius with
              | none => .error .valueError
              | some radius =>
                if radius.units ≠ some .M then .error .valueError
                else
                  match radius.value with
                  | none => .error .valueError
                  | some value => .ok (circleCover lat lng value)
        | _ => .error .valueError

/-- The `outline_polygon` branch of `expand_volume4` (geo.py lines 152-176):
validity, Polygon type, exactly one ring of at least 4 coordinates with first
equal to last.  The ring's coordinates are *not* range-checked (the source
builds a bounding box from them directly). -/
def expandPolygonCells (polygonCover : List (Rat × Rat) → Finset Nat)
    (polygon : PolygonJson) : Except DssError (Finset Nat) :=
  if polygon.is_valid = false then .error .valueError
  else if polygon.type ≠ some .Polygon then .error .valueError
  else
    match polygon.coordinates with
    | [coords] =>
      if coords.length < 4 then .error .valueError
      else if coords.head? ≠ coords.getLast? then .error .valueError
      else .ok (polygonCover coords)
    | _ => .error .valueError

/-- `geo.expand_volume4` (geo.py lines 99-183): exactly one of
`outline_circle`/`outline_polygon`, the branch above, then times and
altitudes. -/
def expand_volume4 (circleCover : Rat → Rat → Rat → Finset Nat)
    (polygonCover : List (Rat × Rat) → Finset Nat) (extents : Volume4Json) :
    Except DssError Volume4 := do
  match extents.volume with
  | none => throw .valueError
  | some volume =>
    if volume.outline_circle.isSome = volume.outline_polygon.isSome then throw .valueError
    else do
      let cells ←
        match volume.outline_circle with
        | some circleJson => expandCircleCells circleCover circleJson
        | none =>
          match volume.outline_polygon with
          | some polygonJson => expandPolygonCells polygonCover polygonJson
          | none => throw .valueError
      let t0 ← getTime extents.time_start
      let t1 ← getTime extents.time_end
      let a0 ← getAltitude volume.altitude_lower
      let a1 ← getAltitude volume.altitude_upper
      return ⟨t0, t1, a0, a1, cells⟩

/-- `test_utils.make_circle`: a well-shaped circle Feature. -/
def make_circle (lat lng radius : Rat) : CircleJson :=
  { is_valid := true
    type := some .Feature
    geometry := some { type := some .Point, coordinates := [lng, lat] }
    properties := some { radius := some { units := some .M, value := some radius } } }

/-- `test_utils.make_polygon`: a single ring closed by appending the first
coordinate (callers pass a non-empty list). -/
def make_polygon (coords : List (Rat × Rat)) : PolygonJson :=
  { is_valid := true
    type := some .Polygon
    coordinates := [coords ++ [coords.head?.getD (0, 0)]] }

/-- A well-shaped `{format: RFC3339, value}` time object. -/
def wellTime (v : Int) : TimeJson := ⟨some .RFC3339, v⟩

/-- A well-shaped `{reference: W84, units: M, value}` altitude object. -/
def wellAlt (v : Int) : AltitudeJson := ⟨some .W84, some .M, some v⟩

/-- `test_utils.make_vol4` with a circle footprint. -/
def circleVol4 (t0 t1 a0 a1 : Option Int) (lat lng radius : Rat) : Volume4Json :=
  { volume := some
      { outline_circle := some (make_circle lat lng radius)
        outline_polygon := none
        altitude_lower := a0.map wellAlt
        altitude_upper := a1.map wellAlt }
    time_start := t0.map wellTime
    time_end := t1.map wellTime }

/-- `test_utils.make_vol4` with a polygon footprint. -/
def polygonVol4 (t0 t1 a0 a1 : Option Int) (coords : List (Rat × Rat)) : Volume4Json :=
  { volume := some
      { outline_circle := none
        outline_polygon := some (make_polygon coords)
        altitude_lower := a0.map wellAlt
        altitude_upper := a1.map wellAlt }
    time_start := t0.map wellTime
    time_end := t1.map wellTime }

@[simp] theorem except_bind_ok {ε α β : Type} (a : α) (f : α → Except ε β) :
    (Except.ok a >>= f : Except ε β) = f a := rfl

@[simp] theorem except_bind_error {ε α β : Type} (e : ε) (f : α → Except ε β) :
    ((Except.error e : Except ε α) >>= f) = Except.error e := rfl

@[simp] theorem except_isOk_ok {ε α : Type} (a : α) :
    (Except.ok a : Except ε α).isOk = true := rfl

@[simp] theorem except_isOk_error {ε α : Type} (e : ε) :
    (Except.error e : Except ε α).isOk = false := rfl

theorem getTime_none : getTime none = .ok none := rfl

theorem getTime_wellTime (v : Int) : getTime (some (wellTime v)) = .ok (some v) := rfl

theorem getAltitude_none : getAltitude none = .ok none := rfl

theorem getAltitude_wellAlt (v : Int) : getAltitude (some (wellAlt v)) = .ok (some v) := rfl

/-- Evaluation of `expand_volume4` on a well-shaped circle request: only the
center's longitude and latitude are range-checked; the radius value is passed
straight to the coverer. -/
theorem expand_circleVol4_eq (circleCover : Rat → Rat → Rat → Finset Nat)
    (polygonCover : List (Rat × Rat) → Finset Nat) (t0 t1 a0 a1 : Option Int)
    (lat lng radius : Rat) :
    expand_volume4 circleCover polygonCover (circleVol4 t0 t1 a0 a1 lat lng radius) =
      if lng < -180 ∨ lng > 180 then .error .valueError
      else if lat < -90 ∨ lat > 90 then .error .valueError
      else .ok ⟨t0, t1, a0, a1, circleCover lat lng radius⟩ := by
  by_cases hlng : lng < -180 ∨ lng > 180 <;> by_cases hlat : lat < -90 ∨ lat > 90 <;>
    cases t0 <;> cases t1 <;> cases a0 <;> cases a1 <;>
      simp [expand_volume4, circleVol4, make_circle, expandCircleCells, getTime, getAltitude,
            wellTime, wellAlt, hlng, hlat]

/-- Evaluation of `expand_volume4` on a well-shaped polygon request with at
least three distinct points: it is accepted with *no* range check on any
coordinate. -/
theorem expand_polygonVol4_eq (circleCover : Rat → Rat → Rat → Finset Nat)
    (polygonCover : List (Rat × Rat) → Finset Nat) (t0 t1 a0 a1 : Option Int)
    (c0 : Rat × Rat) (cs : List (Rat × Rat)) (h3 : 2 ≤ cs.length) :
    expand_volume4 circleCover polygonCover (polygonVol4 t0 t1 a0 a1 (c0 :: cs)) =
      .ok ⟨t0, t1, a0, a1, polygonCover ((c0 :: cs) ++ [c0])⟩ := by
  have hlen : ¬(cs.length + 1 + 1 < 4) := by omega
  have hlast : (c0 :: (cs ++ [c0])).getLast? = some c0 := by
    rw [← List.cons_append]
    exact List.getLast?_concat _
  cases t0 <;> cases t1 <;> cases a0 <;> cases a1 <;>
    simp [expand_volume4, polygonVol4, make_polygon, expandPolygonCells, getTime, getAltitude,
          wellTime, wellAlt, hlen, hlast]

/-- C5 (code bug in the source): the claim that `overlaps_time_altitude`
returns a boolean without failing for every pair of volumes whose four
endpoints may independently be absent is false on the code: when the first
volume's `time_start` is present and the second volume's `time_end` is absent
the source raises `TypeError` (`None` compared against a `datetime`), whereas
the specified interval semantics with absent endpoints treated as infinite
(`overlapsSpec`) returns `true` at this very input. -/
theorem c5_overlaps_crashes_on_missing_endpoint :
    overlaps_time_altitude ⟨some 0, some 10, none, none, ∅⟩ ⟨some 0, none, none, none, ∅⟩ =
      .error .typeError ∧
    overlapsSpec ⟨some 0, some 10, none, none, ∅⟩ ⟨some 0, none, none, none, ∅⟩ = true :=
  ⟨rfl, rfl⟩

/-- C6 (amended): `expand_volume4` fails with `InvalidRequest` exactly when a
*circle center* coordinate is out of range — latitude outside [-90, 90] or
longitude outside [-180, 180], boundary values accepted — while a circle
radius of any sign is accepted and polygon coordinates are not range-checked
at all (any well-formed closed ring is accepted). -/
theorem c6_range_checks_amended (circleCover : Rat → Rat → Rat → Finset Nat)
    (polygonCover : List (Rat × Rat) → Finset Nat) (t0 t1 a0 a1 : Option Int)
    (lat lng radius : Rat) (c0 : Rat × Rat) (cs : List (Rat × Rat))
    (h3 : 2 ≤ cs.length) :
    ((expand_volume4 circleCover polygonCover
        (circleVol4 t0 t1 a0 a1 lat lng radius)).isOk = true ↔
      (-90 ≤ lat ∧ lat ≤ 90 ∧ -180 ≤ lng ∧ lng ≤ 180)) ∧
    (expand_volume4 circleCover polygonCover
        (polygonVol4 t0 t1 a0 a1 (c0 :: cs))).isOk = true := by
  constructor
  · rw [expand_circleVol4_eq]
    by_cases hlng : lng < -180 ∨ lng > 180
    · rw [if_pos hlng]
      constructor
      · intro hc
        simp at hc
      · intro hc
        rcases hlng with h | h
        · exact absurd h (by push_neg; linarith [hc.2.2.1])
        · exact absurd h (by push_neg; linarith [hc.2.2.2])
    · rw [if_neg hlng]
      by_cases hlat : lat < -90 ∨ lat > 90
      · rw [if_pos hlat]
        constructor
        · intro hc
          simp at hc
        · intro hc
          rcases hlat with h | h
          · exact absurd h (by push_neg; linarith [hc.1])
          · exact absurd h (by push_neg; linarith [hc.2.1])
      · rw [if_neg hlat]
        push_neg at hlng hlat
        constructor
        · intro _
          exact ⟨hlat.1, hlat.2, hlng.1, hlng.2⟩
        · intro _
          simp
  · rw [expand_polygonVol4_eq circleCover polygonCover t0 t1 a0 a1 c0 cs h3]
    simp

/-- C6 (counterexample to the claim as stated): a circle with radius -1 and a
well-formed polygon ring containing latitude 91 are both accepted by
`expand_volume4` (no `InvalidRequest`), contradicting the claim that every
radius < 0 and every out-of-range footprint latitude fails. -/
theorem c6_counterexample :
    (expand_volume4 (fun _ _ _ => ∅) (fun _ => ∅)
      (circleVol4 none none none none 0 0 (-1))).isOk = true ∧
    (expand_volume4 (fun _ _ _ => ∅) (fun _ => ∅)
      (polygonVol4 none none none none [(0, 91), (0, 92), (1, 92)])).isOk = true := by
  constructor
  · rw [expand_circleVol4_eq]
    norm_num
  · rw [show ([(0, 91), (0, 92), (1, 92)] : List (Rat × Rat)) =
        (0, 91) :: [(0, 92), (1, 92)] from rfl,
       expand_polygonVol4_eq _ _ none none none none (0, 91) [(0, 92), (1, 92)] (by simp)]
    simp

/-- Witness for `c6_range_checks_amended` at the boundary circle (90, 180) and
a concrete polygon ring. -/
theorem c6_range_checks_amended_witness :
    ((expand_volume4 (fun _ _ _ => ∅) (fun _ => ∅)
        (circleVol4 none none none none 90 180 1)).isOk = true ↔
      (-90 ≤ (90 : Rat) ∧ (90 : Rat) ≤ 90 ∧ -180 ≤ (180 : Rat) ∧ (180 : Rat) ≤ 180)) ∧
    (expand_volume4 (fun _ _ _ => ∅) (fun _ => ∅)
        (polygonVol4 none none none none ((0, 91) :: [(0, 92), (1, 92)]))).isOk = true :=
  c6_range_checks_amended (fun _ _ _ => ∅) (fun _ => ∅) none none none none
    90 180 1 (0, 91) [(0, 92), (1, 92)] (by simp)

/-- Elements accumulated by an `Except`-valued fold are either inherited from
the accumulator or satisfy whatever the step guarantees of new elements. -/
theorem foldlM_except_mem {α β : Type} (step : List α → β → Except DssError (List α))
    (P : α → Prop)
    (hstep : ∀ acc b acc', step acc b = .ok acc' → ∀ x ∈ acc', x ∈ acc ∨ P x) :
    ∀ (ids : List β) (acc l : List α), ids.foldlM step acc = .ok l →
      ∀ x ∈ l, x ∈ acc ∨ P x := by
  intro ids
  induction ids with
  | nil =>
    intro acc l h x hx
    simp only [List.foldlM_nil] at h
    injection h with h
    rw [h]
    exact Or.inl hx
  | cons b ids ih =>
    intro acc l h x hx
    rw [List.foldlM_cons] at h
    cases hs : step acc b with
    | error e => rw [hs] at h; simp at h
    | ok acc1 =>
      rw [hs] at h
      simp only [except_bind_ok] at h
      rcases ih acc1 l h x hx with hin | hp
      · rcases hstep acc b acc1 hs x hin with hin2 | hp2
        · exact Or.inl hin2
        · exact Or.inr hp2
      · exact Or.inr hp

theorem findOpStep_ok {s : MemoryScdStorage} {vol4 : Volume4}
    {acc : List Operation} {op_id : Nat} {acc' : List Operation}
    (h : findOpStep s vol4 acc op_id = .ok acc') :
    ∀ x ∈ acc', x ∈ acc ∨ ∃ op_id2, mlookup s.operations op_id2 = some x := by
  unfold findOpStep at h
  split at h
  · simp at h
  · rename_i op hl
    cases hov : overlaps_time_altitude vol4 op.vol4 with
    | error e => rw [hov] at h; simp at h
    | ok b =>
      rw [hov] at h
      simp only [except_bind_ok] at h
      cases b with
      | true =>
        simp only [if_true] at h
        injection h with h
        intro x hx
        rw [← h] at hx
        rcases List.mem_append.mp hx with hx | hx
        · exact Or.inl hx
        · simp only [List.mem_singleton] at hx
          rw [hx]
          exact Or.inr ⟨op_id, hl⟩
      | false =>
        simp only [Bool.false_eq_true, if_false] at h
        injection h with h
        intro x hx
        rw [← h] at hx
        exact Or.inl hx

/-- Every operation produced by `find_operations` is a stored operation. -/
theorem find_operations_mem {s : MemoryScdStorage} {vol4 : Volume4}
    {l : List Operation} (h : s.find_operations vol4 = .ok l) :
    ∀ op ∈ l, ∃ op_id, mlookup s.operations op_id = some op := by
  intro op hop
  have := foldlM_except_mem (findOpStep s vol4)
    (fun x => ∃ op_id, mlookup s.operations op_id = some x)
    (fun acc b acc' hs => findOpStep_ok hs)
    (sortedCells (candidateOpIds s vol4)) [] l h op hop
  rcases this with hin | hp
  · simp at hin
  · exact hp

/-- C9: in `GET /operations/{id}` and `POST /operations/query` responses, the
serialized reference of an operation carries the `ovn` field iff the caller's
identity equals that operation's owner, and omits it otherwise. -/
theorem c9_ovn_owner_gated (s : MemoryScdStorage) (caller id : Nat) (vol4 : Volume4)
    (r : OperationRef) (refs : List OperationRef) :
    (GetOperation s id caller = .ok r →
      ∃ op, s.get_operation id = some op ∧ r = op.to_dict (caller == op.owner) ∧
        (r.ovn = some op.ovn ↔ caller = op.owner) ∧ (r.ovn = none ↔ caller ≠ op.owner)) ∧
    (QueryOperations s caller vol4 = .ok refs →
      ∀ q ∈ refs, ∃ op_id op, mlookup s.operations op_id = some op ∧
        q = op.to_dict (op.owner == caller) ∧
        (q.ovn = some op.ovn ↔ op.owner = caller) ∧ (q.ovn = none ↔ op.owner ≠ caller)) := by
  constructor
  · intro h
    unfold GetOperation at h
    split at h
    · rename_i op hl
      injection h with h
      refine ⟨op, hl, h.symm, ?_, ?_⟩ <;> rw [← h] <;>
        by_cases hco : caller = op.owner <;>
          simp [Operation.to_dict, hco]
    · simp at h
  · intro h q hq
    unfold QueryOperations at h
    cases hf : s.find_operations vol4 with
    | error e =>
      rw [hf] at h
      simp at h
    | ok found =>
      rw [hf] at h
      simp only [except_bind_ok] at h
      injection h with h
      rw [← h] at hq
      rcases List.mem_map.mp hq with ⟨op, hopmem, hq⟩
      rcases find_operations_mem hf op hopmem with ⟨op_id, hlook⟩
      refine ⟨op_id, op, hlook, hq.symm, ?_, ?_⟩ <;> rw [← hq] <;>
        by_cases hco : op.owner = caller <;>
          simp [Operation.to_dict, hco]

theorem mem_sortedCells (s : Finset Nat) (c : Nat) : c ∈ sortedCells s ↔ c ∈ s := by
  rcases s with ⟨val, nd⟩
  induction val using Quot.ind with
  | _ l =>
    have h1 : sortedCells ⟨Quot.mk _ l, nd⟩ = List.insertionSort (· ≤ ·) l := rfl
    rw [h1, (List.perm_insertionSort (· ≤ ·) l).mem_iff]
    simp [Finset.mem_mk]

theorem sortedCells_nodup (s : Finset Nat) : (sortedCells s).Nodup := by
  rcases s with ⟨val, nd⟩
  induction val using Quot.ind with
  | _ l =>
    have h1 : sortedCells ⟨Quot.mk _ l, nd⟩ = List.insertionSort (· ≤ ·) l := rfl
    rw [h1]
    exact (List.perm_insertionSort _ l).nodup_iff.mpr (Multiset.coe_nodup.mp nd)

/-! ## Concrete witness data -/

/-- A bounded volume over cell 5. -/
def wVol : Volume4 := ⟨some 10, some 20, some 10, some 20, {5}⟩

/-- A larger bounded volume over cell 5 containing `wVol`. -/
def wVolBig : Volume4 := ⟨some 0, some 100, some 0, some 500, {5}⟩

/-- A volume over cells 5 and 6, not contained in `wVolBig`. -/
def wVolWide : Volume4 := ⟨some 0, some 100, some 0, some 500, {5, 6}⟩

/-- An explicit subscription of USS 7 over `wVolBig`. -/
def wSub : Subscription := ⟨1, 7, 1, 0, wVolBig, 70, true, some false, false, ∅⟩

/-- Store holding only `wSub`. -/
def wStoreSub : MemoryScdStorage := MemoryScdStorage.empty.upsert_subscription wSub

/-- An operation of USS 7 over `wVol` bound to subscription 1. -/
def wOp : Operation := ⟨100, 7, 2, 60, wVol, 71, 1⟩

/-- Store holding only `wOp`. -/
def wStoreOp : MemoryScdStorage := MemoryScdStorage.empty.upsert_operation wOp

/-- Witness for `c9_ovn_owner_gated`: caller 8 reads USS 7's operation; the
reference omits the OVN. -/
theorem c9_ovn_owner_gated_witness :
    (∃ op, wStoreOp.get_operation 100 = some op ∧
        wOp.to_dict false = op.to_dict ((8 : Nat) == op.owner) ∧
        ((wOp.to_dict false).ovn = some op.ovn ↔ (8 : Nat) = op.owner) ∧
        ((wOp.to_dict false).ovn = none ↔ (8 : Nat) ≠ op.owner)) ∧
    (∀ q ∈ [wOp.to_dict false], ∃ op_id op,
        mlookup wStoreOp.operations op_id = some op ∧
        q = op.to_dict (op.owner == (8 : Nat)) ∧
        (q.ovn = some op.ovn ↔ op.owner = (8 : Nat)) ∧
        (q.ovn = none ↔ op.owner ≠ (8 : Nat))) := by
  have h := c9_ovn_owner_gated wStoreOp 8 100 wVol (wOp.to_dict false) [wOp.to_dict false]
  exact ⟨h.1 (by decide), h.2 (by decide)⟩


theorem exceptMap_ok {ε α β : Type} {f : α → β} {x : Except ε α} {r : β}
    (h : exceptMap f x = .ok r) : ∃ a, x = .ok a ∧ r = f a := by
  cases x with
  | error e => simp [exceptMap] at h
  | ok a =>
    unfold exceptMap at h
    injection h with h
    exact ⟨a, rfl, h.symm⟩

/-- Exhaustive description of the store after any `PutOperation` call: either
unchanged, or the cited subscription was mutated in place (a failure after the
write-through), or operation and subscription were fully persisted. -/
theorem PutOperation_state {s : MemoryScdStorage} {id caller : Nat}
    {req : OperationRequest} {freshSubId ovn : Nat} {s' : MemoryScdStorage}
    {e : Except DssError (OperationRef × List Subscriber × Nat)}
    (h : PutOperation s id caller req freshSubId ovn = (s', e)) :
    s' = s ∨
    (∃ subId sub0 sub, req.subscription_id = some subId ∧
      mlookup s.subscriptions subId = some sub0 ∧
      sub = { sub0 with
        dependent_operations := insert id sub0.dependent_operations,
        version := sub0.version + 1 } ∧
      (s' = { s with subscriptions := minsert subId sub s.subscriptions } ∨
       (∃ vol4 op0,
         Volume4.contains sub.vol4 vol4 = .ok true ∧
         Operation.from_request id req caller sub.id (s.get_operation id) vol4 ovn = .ok op0 ∧
         s' = (MemoryScdStorage.upsert_operation
                 { s with subscriptions := minsert subId sub s.subscriptions }
                 { op0 with version := op0.version + 1 }).upsert_subscription sub))) ∨
    (∃ ns url vol4 op0 sub, req.subscription_id = none ∧
      req.new_subscription = some ns ∧ ns.uss_base_url = some url ∧
      sub = { id := freshSubId, owner := caller, version := 1, notification_index := 0,
              vol4 := vol4, uss_base_url := url, notify_for_operations := true,
              notify_for_constraints := ns.notify_for_constraints,
              implicit_subscription := true, dependent_operations := {id} } ∧
      Operation.from_request id req caller sub.id (s.get_operation id) vol4 ovn = .ok op0 ∧
      s' = (s.upsert_operation { op0 with version := op0.version + 1 }).upsert_subscription sub) := by
  unfold PutOperation at h
  cases hex : req.extents with
  | nil =>
    simp only [hex] at h
    injection h with h1 _
    exact Or.inl h1.symm
  | cons v vs =>
    simp only [hex] at h
    cases hcomb : combine_volume4s v vs with
    | error e2 =>
      simp only [hcomb] at h
      injection h with h1 _
      exact Or.inl h1.symm
    | ok vol4 =>
      simp only [hcomb] at h
      by_cases hown : ownerMismatchOp (s.get_operation id) caller = true
      · rw [if_pos hown] at h
        injection h with h1 _
        exact Or.inl h1.symm
      · rw [if_neg hown] at h
        unfold putOperationResolved at h
        cases hsid : req.subscription_id with
        | some subId =>
          simp only [hsid] at h
          cases hlook : mlookup s.subscriptions subId with
          | none =>
            simp only [hlook] at h
            injection h with h1 _
            exact Or.inl h1.symm
          | some sub0 =>
            simp only [hlook] at h
            cases hcont : Volume4.contains sub0.vol4 vol4 with
            | error e2 =>
              simp only [hcont] at h
              injection h with h1 _
              exact Or.inr (Or.inl ⟨subId, sub0, _, rfl, hlook, rfl, Or.inl h1.symm⟩)
            | ok b =>
              simp only [hcont] at h
              cases b with
              | false =>
                simp only [Bool.false_eq_true, if_false] at h
                injection h with h1 _
                exact Or.inr (Or.inl ⟨subId, sub0, _, rfl, hlook, rfl, Or.inl h1.symm⟩)
              | true =>
                simp only [if_true] at h
                unfold putOperationFinish at h
                cases hfr : Operation.from_request id req caller sub0.id
                    (s.get_operation id) vol4 ovn with
                | error e2 =>
                  simp only [hfr] at h
                  injection h with h1 _
                  exact Or.inr (Or.inl ⟨subId, sub0, _, rfl, hlook, rfl, Or.inl h1.symm⟩)
                | ok op0 =>
                  simp only [hfr] at h
                  injection h with h1 _
                  exact Or.inr (Or.inl ⟨subId, sub0, _, rfl, hlook, rfl,
                    Or.inr ⟨vol4, op0, hcont, hfr, h1.symm⟩⟩)
        | none =>
          simp only [hsid] at h
          cases hns : req.new_subscription with
          | none =>
            simp only [hns] at h
            injection h with h1 _
            exact Or.inl h1.symm
          | some ns =>
            simp only [hns] at h
            cases hurl : ns.uss_base_url with
            | none =>
              simp only [hurl] at h
              injection h with h1 _
              exact Or.inl h1.symm
            | some url =>
              simp only [hurl] at h
              unfold putOperationFinish at h
              cases hfr : Operation.from_request id req caller freshSubId
                  (s.get_operation id) vol4 ovn with
              | error e2 =>
                simp only [hfr] at h
                injection h with h1 _
                exact Or.inl h1.symm
              | ok op0 =>
                simp only [hfr] at h
                injection h with h1 _
                exact Or.inr (Or.inr ⟨ns, url, vol4, op0, _, rfl, rfl, hurl, rfl, hfr, h1.symm⟩)

/-- Exhaustive description of a `PutSubscription` call: a failure leaves the
store unchanged; a success persists `from_request`'s record with the
endpoint's extra increment. -/
theorem PutSubscription_state {s : MemoryScdStorage} {id caller : Nat}
    {req : SubscriptionRequest} {now : Int} {s' : MemoryScdStorage}
    {e : Except DssError (SubscriptionRef × Nat)}
    (h : PutSubscription s id caller req now = (s', e)) :
    (s' = s ∧ ∃ err, e = .error err) ∨
    (∃ ns0, Subscription.from_request id req caller (s.get_subscription id) now = .ok ns0 ∧
      ownerMismatchSub (s.get_subscription id) caller = false ∧
      s' = s.upsert_subscription { ns0 with version := ns0.version + 1 } ∧
      e = .ok ({ ns0 with version := ns0.version + 1 }.to_dict,
               if (s.get_subscription id).isSome then 200 else 201)) := by
  unfold PutSubscription at h
  by_cases hown : ownerMismatchSub (s.get_subscription id) caller = true
  · rw [if_pos hown] at h
    injection h with h1 h2
    exact Or.inl ⟨h1.symm, _, h2.symm⟩
  · rw [if_neg hown] at h
    unfold putSubscriptionChecked at h
    cases hfr : Subscription.from_request id req caller (s.get_subscription id) now with
    | error e2 =>
      simp only [hfr] at h
      injection h with h1 h2
      exact Or.inl ⟨h1.symm, _, h2.symm⟩
    | ok ns0 =>
      simp only [hfr] at h
      injection h with h1 h2
      exact Or.inr ⟨ns0, rfl, Bool.not_eq_true _ ▸ eq_false_of_ne_true hown, h1.symm, h2.symm⟩

/-- Exhaustive description of a `DeleteSubscription` call. -/
theorem DeleteSubscription_state {s : MemoryScdStorage} {id caller : Nat}
    {s' : MemoryScdStorage} {e : Except DssError SubscriptionRef}
    (h : DeleteSubscription s id caller = (s', e)) :
    (s' = s ∧ ∃ err, e = .error err) ∨
    (∃ old_subscription, mlookup s.subscriptions id = some old_subscription ∧
      old_subscription.owner = caller ∧ s' = s.delete_subscription id ∧
      e = .ok old_subscription.to_dict) := by
  unfold DeleteSubscription at h
  cases hlook : s.get_subscription id with
  | none =>
    simp only [MemoryScdStorage.get_subscription] at hlook
    simp only [MemoryScdStorage.get_subscription, hlook] at h
    injection h with h1 h2
    exact Or.inl ⟨h1.symm, _, h2.symm⟩
  | some old_subscription =>
    simp only [MemoryScdStorage.get_subscription] at hlook
    simp only [MemoryScdStorage.get_subscription, hlook] at h
    by_cases hown : (old_subscription.owner != caller) = true
    · rw [if_pos hown] at h
      injection h with h1 h2
      exact Or.inl ⟨h1.symm, _, h2.symm⟩
    · rw [if_neg hown] at h
      injection h with h1 h2
      have : old_subscription.owner = caller := by
        simpa using hown
      exact Or.inr ⟨old_subscription, hlook, this, h1.symm, h2.symm⟩

/-- Exhaustive description of a `DeleteOperation` call: failures before the
delete leave the store unchanged; a missing bound subscription or a missing
dependent entry fails *after* the operation was deleted; the main path removes
the operation and updates or cascades the bound subscription. -/
theorem DeleteOperation_state {s : MemoryScdStorage} {id caller : Nat}
    {s' : MemoryScdStorage} {e : Except DssError (OperationRef × List Subscriber)}
    (h : DeleteOperation s id caller = (s', e)) :
    (s' = s ∧ ∃ err, e = .error err) ∨
    (∃ old_operation, mlookup s.operations id = some old_operation ∧
      old_operation.owner = caller ∧
      ((s' = s.delete_operation id ∧
        mlookup (s.delete_operation id).subscriptions old_operation.subscription = none ∧
        e = .error .attributeError) ∨
       (∃ sub, mlookup (s.delete_operation id).subscriptions old_operation.subscription = some sub ∧
        id ∉ sub.dependent_operations ∧ s' = s.delete_operation id ∧ e = .error .keyError) ∨
       (∃ sub sub1 s2,
        mlookup (s.delete_operation id).subscriptions old_operation.subscription = some sub ∧
        id ∈ sub.dependent_operations ∧
        sub1 = { sub with dependent_operations := sub.dependent_operations.erase id } ∧
        s2 = { s.delete_operation id with
          subscriptions := minsert old_operation.subscription sub1
            (s.delete_operation id).subscriptions } ∧
        s' = (if sub1.implicit_subscription && decide (sub1.dependent_operations = ∅)
              then s2.delete_subscription sub1.id
              else s2.upsert_subscription { sub1 with version := sub1.version + 1 }) ∧
        e = exceptMap (fun found => (old_operation.to_dict true, get_subscribers found))
              (s'.find_subscriptions old_operation.vol4 none)))) := by
  unfold DeleteOperation at h
  cases hlook : s.get_operation id with
  | none =>
    simp only [MemoryScdStorage.get_operation] at hlook
    simp only [MemoryScdStorage.get_operation, hlook] at h
    injection h with h1 h2
    exact Or.inl ⟨h1.symm, _, h2.symm⟩
  | some old_operation =>
    simp only [MemoryScdStorage.get_operation] at hlook
    simp only [MemoryScdStorage.get_operation, hlook] at h
    by_cases hown : (old_operation.owner != caller) = true
    · rw [if_pos hown] at h
      injection h with h1 h2
      exact Or.inl ⟨h1.symm, _, h2.symm⟩
    · rw [if_neg hown] at h
      have hown2 : old_operation.owner = caller := by simpa using hown
      cases hsub : mlookup (s.delete_operation id).subscriptions old_operation.subscription with
      | none =>
        simp only [hsub] at h
        injection h with h1 h2
        exact Or.inr ⟨old_operation, hlook, hown2, Or.inl ⟨h1.symm, hsub, h2.symm⟩⟩
      | some sub =>
        simp only [hsub] at h
        by_cases hdep : id ∈ sub.dependent_operations
        · rw [if_pos hdep] at h
          injection h with h1 h2
          refine Or.inr ⟨old_operation, hlook, hown2, Or.inr (Or.inr
            ⟨sub, _, _, hsub, hdep, rfl, rfl, h1.symm, ?_⟩)⟩
          rw [← h1]
          exact h2.symm
        · rw [if_neg hdep] at h
          injection h with h1 h2
          exact Or.inr ⟨old_operation, hlook, hown2, Or.inr (Or.inl
            ⟨sub, hsub, hdep, h1.symm, h2.symm⟩)⟩

/-- Full description of a *successful* `PutOperation` call. -/
theorem PutOperation_ok {s : MemoryScdStorage} {id caller : Nat}
    {req : OperationRequest} {freshSubId ovn : Nat} {s' : MemoryScdStorage}
    {r : OperationRef × List Subscriber × Nat}
    (h : PutOperation s id caller req freshSubId ovn = (s', .ok r)) :
    ∃ v vs vol4 sub s1 op0 found,
      req.extents = v :: vs ∧
      combine_volume4s v vs = .ok vol4 ∧
      ownerMismatchOp (s.get_operation id) caller = false ∧
      ((∃ subId sub0, req.subscription_id = some subId ∧
         mlookup s.subscriptions subId = some sub0 ∧
         sub = { sub0 with
           dependent_operations := insert id sub0.dependent_operations,
           version := sub0.version + 1 } ∧
         Volume4.contains sub.vol4 vol4 = .ok true ∧
         s1 = { s with subscriptions := minsert subId sub s.subscriptions }) ∨
       (req.subscription_id = none ∧ ∃ ns url, req.new_subscription = some ns ∧
         ns.uss_base_url = some url ∧
         sub = { id := freshSubId, owner := caller, version := 1, notification_index := 0,
                 vol4 := vol4, uss_base_url := url, notify_for_operations := true,
                 notify_for_constraints := ns.notify_for_constraints,
                 implicit_subscription := true, dependent_operations := {id} } ∧
         s1 = s)) ∧
      Operation.from_request id req caller sub.id (s.get_operation id) vol4 ovn = .ok op0 ∧
      s' = (s1.upsert_operation { op0 with version := op0.version + 1 }).upsert_subscription sub ∧
      s'.find_subscriptions vol4 none = .ok found ∧
      r = ({ op0 with version := op0.version + 1 }.to_dict true, get_subscribers found,
           if (s.get_operation id).isSome then 200 else 201) := by
  unfold PutOperation at h
  cases hex : req.extents with
  | nil =>
    simp only [hex] at h
    injection h with _ h2
    simp at h2
  | cons v vs =>
    simp only [hex] at h
    cases hcomb : combine_volume4s v vs with
    | error e2 =>
      simp only [hcomb] at h
      injection h with _ h2
      simp at h2
    | ok vol4 =>
      simp only [hcomb] at h
      by_cases hown : ownerMismatchOp (s.get_operation id) caller = true
      · rw [if_pos hown] at h
        injection h with _ h2
        simp at h2
      · rw [if_neg hown] at h
        have hownf : ownerMismatchOp (s.get_operation id) caller = false :=
          eq_false_of_ne_true hown
        unfold putOperationResolved at h
        cases hsid : req.subscription_id with
        | some subId =>
          simp only [hsid] at h
          cases hlook : mlookup s.subscriptions subId with
          | none =>
            simp only [hlook] at h
            injection h with _ h2
            simp at h2
          | some sub0 =>
            simp only [hlook] at h
            cases hcont : Volume4.contains sub0.vol4 vol4 with
            | error e2 =>
              simp only [hcont] at h
              injection h with _ h2
              simp at h2
            | ok b =>
              simp only [hcont] at h
              cases b with
              | false =>
                simp only [Bool.false_eq_true, if_false] at h
                injection h with _ h2
                simp at h2
              | true =>
                simp only [if_true] at h
                unfold putOperationFinish at h
                cases hfr : Operation.from_request id req caller sub0.id
                    (s.get_operation id) vol4 ovn with
                | error e2 =>
                  simp only [hfr] at h
                  injection h with _ h2
                  simp at h2
                | ok op0 =>
                  simp only [hfr] at h
                  injection h with h1 h2
                  rcases exceptMap_ok h2 with ⟨found, hfind, hr⟩
                  refine ⟨v, vs, vol4, _, _, op0, found, rfl, hcomb, hownf,
                    Or.inl ⟨subId, sub0, rfl, hlook, rfl, hcont, rfl⟩,
                    hfr, h1.symm, ?_, hr⟩
                  rw [← h1]
                  exact hfind
        | none =>
          simp only [hsid] at h
          cases hns : req.new_subscription with
          | none =>
            simp only [hns] at h
            injection h with _ h2
            simp at h2
          | some ns =>
            simp only [hns] at h
            cases hurl : ns.uss_base_url with
            | none =>
              simp only [hurl] at h
              injection h with _ h2
              simp at h2
            | some url =>
              simp only [hurl] at h
              unfold putOperationFinish at h
              cases hfr : Operation.from_request id req caller freshSubId
                  (s.get_operation id) vol4 ovn with
              | error e2 =>
                simp only [hfr] at h
                injection h with _ h2
                simp at h2
              | ok op0 =>
                simp only [hfr] at h
                injection h with h1 h2
                rcases exceptMap_ok h2 with ⟨found, hfind, hr⟩
                refine ⟨v, vs, vol4, _, _, op0, found, rfl, hcomb, hownf,
                  Or.inr ⟨rfl, ns, url, rfl, hurl, rfl, rfl⟩,
                  hfr, h1.symm, ?_, hr⟩
                rw [← h1]
                exact hfind

/-! ## Store projection lemmas -/

theorem upsert_subscription_subs_lookup (s : MemoryScdStorage) (sub : Subscription) (k : Nat) :
    mlookup (s.upsert_subscription sub).subscriptions k =
      if k = sub.id then some sub else mlookup s.subscriptions k := by
  by_cases hk : k = sub.id
  · rw [if_pos hk, hk]
    exact mlookup_minsert_self _ _ _
  · rw [if_neg hk]
    exact mlookup_minsert_ne _ _ _ _ hk

theorem upsert_subscription_ops (s : MemoryScdStorage) (sub : Subscription) :
    (s.upsert_subscription sub).operations = s.operations := rfl

theorem upsert_operation_ops_lookup (s : MemoryScdStorage) (op : Operation) (k : Nat) :
    mlookup (s.upsert_operation op).operations k =
      if k = op.id then some op else mlookup s.operations k := by
  by_cases hk : k = op.id
  · rw [if_pos hk, hk]
    exact mlookup_minsert_self _ _ _
  · rw [if_neg hk]
    exact mlookup_minsert_ne _ _ _ _ hk

theorem upsert_operation_subs (s : MemoryScdStorage) (op : Operation) :
    (s.upsert_operation op).subscriptions = s.subscriptions := rfl

theorem delete_subscription_absent (s : MemoryScdStorage) (id : Nat)
    (h : mlookup s.subscriptions id = none) : s.delete_subscription id = s := by
  unfold MemoryScdStorage.delete_subscription
  simp only [h]

theorem delete_subscription_present (s : MemoryScdStorage) (id : Nat)
    {sub : Subscription} (h : mlookup s.subscriptions id = some sub) :
    (s.delete_subscription id).subscriptions = merase id s.subscriptions ∧
    (s.delete_subscription id).operations = s.operations := by
  unfold MemoryScdStorage.delete_subscription
  simp only [h]
  exact ⟨trivial, trivial⟩

theorem delete_operation_absent (s : MemoryScdStorage) (id : Nat)
    (h : mlookup s.operations id = none) : s.delete_operation id = s := by
  unfold MemoryScdStorage.delete_operation
  simp only [h]

theorem delete_operation_present (s : MemoryScdStorage) (id : Nat)
    {op : Operation} (h : mlookup s.operations id = some op) :
    (s.delete_operation id).operations = merase id s.operations ∧
    (s.delete_operation id).subscriptions = s.subscriptions := by
  unfold MemoryScdStorage.delete_operation
  simp only [h]
  exact ⟨trivial, trivial⟩

theorem delete_operation_subs (s : MemoryScdStorage) (id : Nat) :
    (s.delete_operation id).subscriptions = s.subscriptions := by
  unfold MemoryScdStorage.delete_operation
  cases h : mlookup s.operations id <;> rfl

/-- C2 (amended): a successful PUT of a Subscription or Operation persists a
record whose version is exactly 2 at creation and exactly the previous
version plus 2 at mutation — the version is incremented twice, once in
`from_request` (`old_version + 1`) and once more in the endpoint
(`version += 1`). -/
theorem c2_version_plus_two (s : MemoryScdStorage) (id caller : Nat)
    (sreq : SubscriptionRequest) (now : Int) (oreq : OperationRequest)
    (freshSubId ovn : Nat) (s1 s2 : MemoryScdStorage)
    (r1 : SubscriptionRef × Nat) (r2 : OperationRef × List Subscriber × Nat) :
    (PutSubscription s id caller sreq now = (s1, .ok r1) →
      ∃ sub, mlookup s1.subscriptions id = some sub ∧
        sub.version = (match s.get_subscription id with
                       | none => 2
                       | some old => old.version + 2)) ∧
    (PutOperation s id caller oreq freshSubId ovn = (s2, .ok r2) →
      ∃ op, mlookup s2.operations id = some op ∧
        op.version = (match s.get_operation id with
                      | none => 2
                      | some old => old.version + 2)) := by
  constructor
  · intro h
    rcases PutSubscription_state h with ⟨_, err, herr⟩ | ⟨ns0, hfr, _, hs1, _⟩
    · simp at herr
    · rcases subFromRequest_ok hfr with ⟨hid, _, hver, _, hupd, hnew⟩
      refine ⟨{ ns0 with version := ns0.version + 1 }, ?_, ?_⟩
      · rw [hs1, upsert_subscription_subs_lookup]
        have : ({ ns0 with version := ns0.version + 1 } : Subscription).id = id := hid
        rw [if_pos this.symm]
      · show ns0.version + 1 = _
        rw [hver]
        cases hex : s.get_subscription id with
        | none =>
          rcases hnew hex with ⟨_, _, hov⟩
          rw [hov]
          rfl
        | some old =>
          rcases hupd old hex with ⟨_, _, hov⟩
          rw [hov]
          show old.version + 1 + 1 = old.version + 2
          omega
  · intro h
    rcases PutOperation_ok h with
      ⟨v, vs, vol4, sub, st1, op0, found, _, _, _, _, hfr, hs2, _, _⟩
    rcases opFromRequest_ok hfr with ⟨hop0, _, _, _, _, hupd, hnew⟩
    refine ⟨{ op0 with version := op0.version + 1 }, ?_, ?_⟩
    · rw [hs2]
      rw [show ((st1.upsert_operation { op0 with version := op0.version + 1 }).upsert_subscription
            sub).operations =
          (st1.upsert_operation { op0 with version := op0.version + 1 }).operations from rfl]
      rw [upsert_operation_ops_lookup]
      have : ({ op0 with version := op0.version + 1 } : Operation).id = id := by
        rw [hop0]
      rw [if_pos this.symm]
    · show op0.version + 1 = _
      rw [show op0.version = oreq.old_version.getD 0 + 1 by rw [hop0]]
      cases hex : s.get_operation id with
      | none =>
        rw [hnew hex]
        rfl
      | some old =>
        rw [hupd old hex]
        show old.version + 1 + 1 = old.version + 2
        omega

/-- A creation request for a subscription (no `old_version`). -/
def c2subReq : SubscriptionRequest := ⟨none, some 70, some wVolBig, some true, some false⟩

/-- A creation request for an operation citing subscription 1. -/
def c2opReq : OperationRequest := ⟨[wVol], none, some 71, some 1, none⟩

/-- Store after creating a subscription with id 100 on `wStoreSub`. -/
def c2s1 : MemoryScdStorage := (PutSubscription wStoreSub 100 7 c2subReq 0).1

/-- Store after creating an operation with id 100 on `wStoreSub`. -/
def c2s2 : MemoryScdStorage := (PutOperation wStoreSub 100 7 c2opReq 50 60).1

/-- The response of the subscription creation in `c2s1`. -/
def c2r1 : SubscriptionRef × Nat :=
  (⟨100, 2, 0, some 0, some 100, 70, true, some false, false, ∅⟩, 201)

/-- The response of the operation creation in `c2s2`. -/
def c2r2 : OperationRef × List Subscriber × Nat :=
  (⟨100, 7, 2, some 10, some 20, 71, 1, some 60⟩, [⟨70, [⟨1, 0⟩]⟩], 201)

/-- C2 (counterexample to the claim as stated): freshly created subscription
and operation records are persisted with version 2, not 1. -/
theorem c2_create_version_not_one :
    (PutSubscription MemoryScdStorage.empty 1 7 c2subReq 0).2.isOk = true ∧
    ((PutSubscription MemoryScdStorage.empty 1 7 c2subReq 0).1.get_subscription 1).map
        Subscription.version = some 2 ∧
    ¬ (((PutSubscription MemoryScdStorage.empty 1 7 c2subReq 0).1.get_subscription 1).map
        Subscription.version = some 1) ∧
    (PutOperation wStoreSub 100 7 c2opReq 50 60).2.isOk = true ∧
    ((PutOperation wStoreSub 100 7 c2opReq 50 60).1.get_operation 100).map
        Operation.version = some 2 ∧
    ¬ (((PutOperation wStoreSub 100 7 c2opReq 50 60).1.get_operation 100).map
        Operation.version = some 1) := by decide

/-- Witness for `c2_version_plus_two` at a concrete creation of a
subscription and an operation. -/
theorem c2_version_plus_two_witness :
    (∃ sub, mlookup c2s1.subscriptions 100 = some sub ∧
       sub.version = (match wStoreSub.get_subscription 100 with
                      | none => 2
                      | some old => old.version + 2)) ∧
    (∃ op, mlookup c2s2.operations 100 = some op ∧
       op.version = (match wStoreSub.get_operation 100 with
                     | none => 2
                     | some old => old.version + 2)) := by
  have h := c2_version_plus_two wStoreSub 100 7 c2subReq 0 c2opReq 50 60 c2s1 c2s2 c2r1 c2r2
  exact ⟨h.1 (by decide), h.2 (by decide)⟩

/-- C10: a `PUT /operations/{id}` citing an existing subscription performs no
ownership check on that subscription: whenever the call succeeds — with no
hypothesis whatsoever on the subscription's owner — the cited subscription is
stored with its version incremented and the operation's id added to its
`dependent_operations` (the witness exercises this with a subscription owned
by a different USS than the caller). -/
theorem c10_no_subscription_ownership_check (s : MemoryScdStorage) (id caller : Nat)
    (req : OperationRequest) (freshSubId ovn : Nat) (s' : MemoryScdStorage)
    (r : OperationRef × List Subscriber × Nat) (subId : Nat) (sub0 : Subscription)
    (hsid : req.subscription_id = some subId)
    (hlook : mlookup s.subscriptions subId = some sub0)
    (hid : sub0.id = subId)
    (h : PutOperation s id caller req freshSubId ovn = (s', .ok r)) :
    mlookup s'.subscriptions subId =
      some { sub0 with
        dependent_operations := insert id sub0.dependent_operations,
        version := sub0.version + 1 } := by
  rcases PutOperation_ok h with
    ⟨v, vs, vol4, sub, s1, op0, found, _, _, _, hbranch, _, hs', _, _⟩
  rcases hbranch with ⟨subId2, sub02, hsid2, hlook2, hsub, _, hs1⟩ | ⟨hnone, _⟩
  · rw [hsid] at hsid2
    injection hsid2 with hsid2
    subst hsid2
    rw [hlook] at hlook2
    injection hlook2 with hlook2
    subst hlook2
    rw [hs', upsert_subscription_subs_lookup]
    rw [if_pos (by rw [hsub]; exact hid.symm)]
    rw [hsub]
  · rw [hsid] at hnone
    exact absurd hnone (by simp)

/-- The subscription of USS 9 used by the C10 witness. -/
def c10sub : Subscription := ⟨1, 9, 1, 0, wVolBig, 70, true, some false, false, ∅⟩

/-- Store holding only `c10sub`. -/
def c10store : MemoryScdStorage := MemoryScdStorage.empty.upsert_subscription c10sub

/-- USS 7's operation request citing USS 9's subscription. -/
def c10req : OperationRequest := ⟨[wVol], none, some 71, some 1, none⟩

/-- Store after USS 7's PUT against USS 9's subscription. -/
def c10s2 : MemoryScdStorage := (PutOperation c10store 100 7 c10req 50 60).1

/-- The response of that PUT. -/
def c10r : OperationRef × List Subscriber × Nat :=
  (⟨100, 7, 2, some 10, some 20, 71, 1, some 60⟩, [⟨70, [⟨1, 0⟩]⟩], 201)

/-- Witness for `c10_no_subscription_ownership_check`: caller 7 successfully
mutates USS 9's subscription through an operation PUT. -/
theorem c10_no_subscription_ownership_check_witness :
    c10sub.owner = 9 ∧ (9 : Nat) ≠ 7 ∧
    mlookup c10s2.subscriptions 1 =
      some { c10sub with
        dependent_operations := insert 100 c10sub.dependent_operations,
        version := c10sub.version + 1 } := by
  refine ⟨rfl, by decide, ?_⟩
  exact c10_no_subscription_ownership_check c10store 100 7 c10req 50 60 c10s2 c10r 1 c10sub
    (by decide) (by decide) (by decide) (by decide)

/-- C7: after a successful `DELETE /operations/{id}`, the operation is removed
from the store and its id is removed from the bound subscription's
`dependent_operations`; if that subscription is implicit and its
`dependent_operations` becomes empty it is deleted from the store, otherwise
it is re-stored with its version incremented by exactly 1. -/
theorem c7_delete_operation_cascade (s : MemoryScdStorage) (id caller : Nat)
    (s' : MemoryScdStorage) (r : OperationRef × List Subscriber)
    (old_operation : Operation) (sub : Subscription)
    (hop : mlookup s.operations id = some old_operation)
    (hsub : mlookup s.subscriptions old_operation.subscription = some sub)
    (hid : sub.id = old_operation.subscription)
    (h : DeleteOperation s id caller = (s', .ok r)) :
    id ∈ sub.dependent_operations ∧
    mlookup s'.operations id = none ∧
    ((sub.implicit_subscription = true ∧ sub.dependent_operations.erase id = ∅) →
       mlookup s'.subscriptions old_operation.subscription = none) ∧
    (¬(sub.implicit_subscription = true ∧ sub.dependent_operations.erase id = ∅) →
       mlookup s'.subscriptions old_operation.subscription =
         some { sub with
           dependent_operations := sub.dependent_operations.erase id,
           version := sub.version + 1 }) := by
  rcases DeleteOperation_state h with ⟨_, err, herr⟩ | ⟨old2, hop2, hown2, hpaths⟩
  · simp at herr
  · rw [hop] at hop2
    injection hop2 with hop2
    subst hop2
    have hsubs_del : (s.delete_operation id).subscriptions = s.subscriptions :=
      delete_operation_subs s id
    rcases hpaths with ⟨_, hnone, _⟩ | ⟨sub2, hsub2, _, _, herr⟩ | hmain
    · rw [hsubs_del, hsub] at hnone
      exact absurd hnone (by simp)
    · simp at herr
    · rcases hmain with ⟨sub2, sub1, s2, hsub2, hdep, hsub1, hs2, hs', _⟩
      rw [hsubs_del, hsub] at hsub2
      injection hsub2 with hsub2
      subst hsub2
      have hops_del : (s.delete_operation id).operations = merase id s.operations :=
        (delete_operation_present s id hop).1
      have hops_s2 : s2.operations = merase id s.operations := by
        rw [hs2]
        exact hops_del
      refine ⟨hdep, ?_, ?_, ?_⟩
      · -- the operation is gone from the final store
        rw [hs']
        by_cases hcasc : (sub1.implicit_subscription && decide (sub1.dependent_operations = ∅)) = true
        · rw [if_pos hcasc]
          unfold MemoryScdStorage.delete_subscription
          cases hl : mlookup s2.subscriptions sub1.id with
          | none =>
            simp only [hl]
            rw [hops_s2]
            exact mlookup_merase_self _ _
          | some x =>
            simp only [hl]
            show mlookup s2.operations id = none
            rw [hops_s2]
            exact mlookup_merase_self _ _
        · rw [if_neg hcasc]
          rw [show (s2.upsert_subscription { sub1 with version := sub1.version + 1 }).operations
              = s2.operations from rfl, hops_s2]
          exact mlookup_merase_self _ _
      · intro ⟨himp, hempty⟩
        have hcasc : (sub1.implicit_subscription && decide (sub1.dependent_operations = ∅)) = true := by
          rw [hsub1]
          simp only [Bool.and_eq_true, decide_eq_true_eq]
          exact ⟨himp, hempty⟩
        rw [hs', if_pos hcasc]
        have hsub1id : sub1.id = old_operation.subscription := by
          rw [hsub1]
          exact hid
        have hlook_s2 : mlookup s2.subscriptions sub1.id = some sub1 := by
          rw [hs2, hsub1id]
          exact mlookup_minsert_self _ _ _
        rw [(delete_subscription_present s2 sub1.id hlook_s2).1, ← hsub1id]
        exact mlookup_merase_self _ _
      · intro hncasc
        have hcasc : (sub1.implicit_subscription && decide (sub1.dependent_operations = ∅)) = false := by
          rw [hsub1]
          simp only [Bool.and_eq_true, decide_eq_true_eq]
          by_contra hc
          rw [Bool.not_eq_false, Bool.and_eq_true, decide_eq_true_eq] at hc
          exact hncasc ⟨hc.1, hc.2⟩
        rw [hs', if_neg (by rw [hcasc]; simp)]
        rw [upsert_subscription_subs_lookup]
        rw [if_pos (by show old_operation.subscription = sub1.id; rw [hsub1]; exact hid.symm)]
        rw [hsub1]

/-- USS 7's operation request with a `new_subscription` block. -/
def c7req : OperationRequest := ⟨[wVol], none, some 71, none, some ⟨some 72, none⟩⟩

/-- Store after creating operation 100 with an implicit subscription 50. -/
def c7store : MemoryScdStorage := (PutOperation MemoryScdStorage.empty 100 7 c7req 50 60).1

/-- The operation stored in `c7store`. -/
def c7op : Operation := ⟨100, 7, 2, 60, wVol, 71, 50⟩

/-- The implicit subscription stored in `c7store`. -/
def c7sub : Subscription := ⟨50, 7, 1, 0, wVol, 72, true, none, true, {100}⟩

/-- Store after deleting operation 100 from `c7store`. -/
def c7sFinal : MemoryScdStorage := (DeleteOperation c7store 100 7).1

/-- The response of that delete. -/
def c7r : OperationRef × List Subscriber := (⟨100, 7, 2, some 10, some 20, 71, 50, some 60⟩, [])

/-- Witness for `c7_delete_operation_cascade`: deleting the only dependent
operation of an implicit subscription cascades the subscription away. -/
theorem c7_delete_operation_cascade_witness :
    100 ∈ c7sub.dependent_operations ∧
    mlookup c7sFinal.operations 100 = none ∧
    ((c7sub.implicit_subscription = true ∧ c7sub.dependent_operations.erase 100 = ∅) →
       mlookup c7sFinal.subscriptions c7op.subscription = none) ∧
    (¬(c7sub.implicit_subscription = true ∧ c7sub.dependent_operations.erase 100 = ∅) →
       mlookup c7sFinal.subscriptions c7op.subscription =
         some { c7sub with
           dependent_operations := c7sub.dependent_operations.erase 100,
           version := c7sub.version + 1 }) :=
  c7_delete_operation_cascade c7store 100 7 c7sFinal c7r c7op c7sub
    (by decide) (by decide) (by decide) (by decide)

/-- An operation request whose envelope (cells {5, 6}) is not contained in
subscription 1's volume (cells {5}). -/
def c1reqWide : OperationRequest := ⟨[wVolWide], none, some 71, some 1, none⟩

/-- An operation request with a wrong `old_version` citing subscription 1. -/
def c1reqVer : OperationRequest := ⟨[wVol], some 5, some 71, some 1, none⟩

/-- C1 (code bug): a failed `PUT /operations/{id}` does *not* always leave the
store unchanged.  A PUT citing a subscription that does not contain the
operation's envelope fails with `InvalidRequest`, yet the stored subscription
has already been mutated in place — its version incremented and the
operation's id added to `dependent_operations`; a PUT failing the
`old_version` check after citing a valid subscription leaves the same
mutation behind. -/
theorem c1_failed_put_operation_mutates_cited_subscription :
    (PutOperation wStoreSub 100 7 c1reqWide 50 60).2 = .error .valueError ∧
    mlookup (PutOperation wStoreSub 100 7 c1reqWide 50 60).1.subscriptions 1 =
      some { wSub with dependent_operations := {100}, version := 2 } ∧
    (PutOperation wStoreSub 100 7 c1reqWide 50 60).1 ≠ wStoreSub ∧
    (PutOperation wStoreSub 100 7 c1reqVer 50 60).2 = .error .valueError ∧
    mlookup (PutOperation wStoreSub 100 7 c1reqVer 50 60).1.subscriptions 1 =
      some { wSub with dependent_operations := {100}, version := 2 } := by decide

/-- Every subscription stored after a step either keeps the notification
index it had before the step, or is a fresh record with index 0. -/
def NotifIdxPreserved (s s' : MemoryScdStorage) : Prop :=
  ∀ k sub', mlookup s'.subscriptions k = some sub' →
    (∃ sub, mlookup s.subscriptions k = some sub ∧
      sub'.notification_index = sub.notification_index) ∨
    sub'.notification_index = 0

theorem notifIdxPreserved_refl (s : MemoryScdStorage) : NotifIdxPreserved s s :=
  fun _ sub' h => Or.inl ⟨sub', h, rfl⟩

/-- The stored-id coherence used below: every stored subscription's `id`
field equals its key (maintained by every handler, which always keys records
by their `id`). -/
def SubIdsMatch (s : MemoryScdStorage) : Prop :=
  ∀ k sub, mlookup s.subscriptions k = some sub → sub.id = k

/-- C4 (amended): no handler ever increments a stored `notification_index`:
after any subscription PUT/DELETE or operation PUT/DELETE — including the
fan-out-producing operation mutations — every stored subscription either
carries its previous `notification_index` unchanged or is a newly created
record with `notification_index` 0.  (`get_subscribers` only reads the
index.) -/
theorem c4_notification_index_constant (s : MemoryScdStorage)
    (id caller freshSubId ovn : Nat) (oreq : OperationRequest)
    (sreq : SubscriptionRequest) (now : Int)
    (hwf : SubIdsMatch s) :
    (∀ s' e, PutSubscription s id caller sreq now = (s', e) → NotifIdxPreserved s s') ∧
    (∀ s' e, DeleteSubscription s id caller = (s', e) → NotifIdxPreserved s s') ∧
    (∀ s' e, PutOperation s id caller oreq freshSubId ovn = (s', e) →
      NotifIdxPreserved s s') ∧
    (∀ s' e, DeleteOperation s id caller = (s', e) → NotifIdxPreserved s s') := by
  refine ⟨?_, ?_, ?_, ?_⟩
  · intro s' e h
    rcases PutSubscription_state h with ⟨hs', _⟩ | ⟨ns0, hfr, _, hs', _⟩
    · rw [hs']
      exact notifIdxPreserved_refl s
    · rcases subFromRequest_ok hfr with ⟨hid, _, _, _, hupd, hnew⟩
      intro k sub' hk
      rw [hs', upsert_subscription_subs_lookup] at hk
      by_cases hkid : k = ({ ns0 with version := ns0.version + 1 } : Subscription).id
      · rw [if_pos hkid] at hk
        injection hk with hk
        cases hex : s.get_subscription id with
        | none =>
          rcases hnew hex with ⟨_, hni, _⟩
          right
          rw [← hk]
          exact hni
        | some old =>
          rcases hupd old hex with ⟨_, hni, _⟩
          left
          refine ⟨old, ?_, by rw [← hk]; exact hni⟩
          have : k = id := by rw [hkid]; exact hid
          rw [this]
          exact hex
      · rw [if_neg hkid] at hk
        exact Or.inl ⟨sub', hk, rfl⟩
  · intro s' e h
    rcases DeleteSubscription_state h with ⟨hs', _⟩ | ⟨old, hold, _, hs', _⟩
    · rw [hs']
      exact notifIdxPreserved_refl s
    · intro k sub' hk
      rw [hs'] at hk
      rw [(delete_subscription_present s id hold).1] at hk
      by_cases hkid : k = id
      · rw [hkid, mlookup_merase_self] at hk
        exact absurd hk (by simp)
      · rw [mlookup_merase_ne _ _ _ hkid] at hk
        exact Or.inl ⟨sub', hk, rfl⟩
  · intro s' e h
    rcases PutOperation_state h with hs' |
      ⟨subId, sub0, sub, hsid, hlook, hsub, hrest⟩ |
      ⟨ns, url, vol4, op0, sub, hsid, hns, hurl, hsub, hfr, hs'⟩
    · rw [hs']
      exact notifIdxPreserved_refl s
    · have hsubid : sub.id = subId := by
        rw [hsub]
        exact hwf subId sub0 hlook
      have hw : NotifIdxPreserved s
          { s with subscriptions := minsert subId sub s.subscriptions } := by
        intro k sub' hk
        by_cases hkid : k = subId
        · rw [hkid] at hk ⊢
          rw [show mlookup (minsert subId sub s.subscriptions) subId = some sub from
            mlookup_minsert_self _ _ _] at hk
          injection hk with hk
          left
          exact ⟨sub0, hlook, by rw [← hk, hsub]⟩
        · rw [show mlookup (minsert subId sub s.subscriptions) k =
              mlookup s.subscriptions k from mlookup_minsert_ne _ _ _ _ hkid] at hk
          exact Or.inl ⟨sub', hk, rfl⟩
      rcases hrest with hs' | ⟨vol4, op0, _, _, hs'⟩
      · rw [hs']
        exact hw
      · rw [hs']
        intro k sub' hk
        rw [upsert_subscription_subs_lookup] at hk
        by_cases hkid : k = sub.id
        · rw [if_pos hkid] at hk
          injection hk with hk
          left
          refine ⟨sub0, by rw [hkid, hsubid]; exact hlook, by rw [← hk, hsub]⟩
        · rw [if_neg hkid] at hk
          rw [show ((MemoryScdStorage.upsert_operation
              { s with subscriptions := minsert subId sub s.subscriptions }
              { op0 with version := op0.version + 1 }).subscriptions)
              = minsert subId sub s.subscriptions from rfl] at hk
          by_cases hkid2 : k = subId
          · exact absurd (by rw [hkid2]; exact hsubid.symm) hkid
          · rw [mlookup_minsert_ne _ _ _ _ hkid2] at hk
            exact Or.inl ⟨sub', hk, rfl⟩
    · rw [hs']
      intro k sub' hk
      rw [upsert_subscription_subs_lookup] at hk
      by_cases hkid : k = sub.id
      · rw [if_pos hkid] at hk
        injection hk with hk
        right
        rw [← hk, hsub]
      · rw [if_neg hkid] at hk
        rw [show ((s.upsert_operation { op0 with version := op0.version + 1 }).subscriptions)
            = s.subscriptions from rfl] at hk
        exact Or.inl ⟨sub', hk, rfl⟩
  · intro s' e h
    rcases DeleteOperation_state h with ⟨hs', _⟩ |
      ⟨old_operation, hop, _, ⟨hs', _, _⟩ | ⟨sub2, _, _, hs', _⟩ | hmain⟩
    · rw [hs']
      exact notifIdxPreserved_refl s
    · rw [hs']
      intro k sub' hk
      rw [delete_operation_subs] at hk
      exact Or.inl ⟨sub', hk, rfl⟩
    · rw [hs']
      intro k sub' hk
      rw [delete_operation_subs] at hk
      exact Or.inl ⟨sub', hk, rfl⟩
    · rcases hmain with ⟨sub, sub1, s2, hsub, hdep, hsub1, hs2, hs', _⟩
      rw [delete_operation_subs] at hsub
      have hsubid : sub.id = old_operation.subscription := hwf _ _ hsub
      have hw2 : ∀ k sub', mlookup s2.subscriptions k = some sub' →
          (∃ sub3, mlookup s.subscriptions k = some sub3 ∧
            sub'.notification_index = sub3.notification_index) := by
        intro k sub' hk
        rw [hs2] at hk
        have hk2 : mlookup (minsert old_operation.subscription sub1
            (s.delete_operation id).subscriptions) k = some sub' := hk
        by_cases hkid : k = old_operation.subscription
        · rw [hkid, mlookup_minsert_self] at hk2
          injection hk2 with hk2
          refine ⟨sub, by rw [hkid]; exact hsub, by rw [← hk2, hsub1]⟩
        · rw [mlookup_minsert_ne _ _ _ _ hkid, delete_operation_subs] at hk2
          exact ⟨sub', hk2, rfl⟩
      rw [hs']
      by_cases hcasc : (sub1.implicit_subscription && decide (sub1.dependent_operations = ∅)) = true
      · rw [if_pos hcasc]
        intro k sub' hk
        unfold MemoryScdStorage.delete_subscription at hk
        cases hl : mlookup s2.subscriptions sub1.id with
        | none =>
          simp only [hl] at hk
          exact Or.inl (hw2 k sub' hk)
        | some x =>
          simp only [hl] at hk
          have hk2 : mlookup (merase sub1.id s2.subscriptions) k = some sub' := hk
          by_cases hkid : k = sub1.id
          · rw [hkid, mlookup_merase_self] at hk2
            exact absurd hk2 (by simp)
          · rw [mlookup_merase_ne _ _ _ hkid] at hk2
            exact Or.inl (hw2 k sub' hk2)
      · rw [if_neg (by rw [Bool.not_eq_true] at hcasc ⊢; exact hcasc)]
        intro k sub' hk
        rw [upsert_subscription_subs_lookup] at hk
        by_cases hkid : k = ({ sub1 with version := sub1.version + 1 } : Subscription).id
        · rw [if_pos hkid] at hk
          injection hk with hk
          left
          have hk2 : k = old_operation.subscription := by
            rw [hkid, hsub1]
            show sub.id = _
            exact hsubid
          refine ⟨sub, by rw [hk2]; exact hsub, by rw [← hk, hsub1]⟩
        · rw [if_neg hkid] at hk
          exact Or.inl (hw2 k sub' hk)

/-- C4 (counterexample to the claim as stated): operation PUT whose fan-out
lists subscription 1, yet subscription 1's stored `notification_index` is 0
both before and after the call — it does not strictly increase. -/
theorem c4_counterexample :
    (PutOperation wStoreSub 100 7 c2opReq 50 60).2 = .ok c2r2 ∧
    1 ∈ subscriberIds c2r2.2.1 ∧
    (wStoreSub.get_subscription 1).map Subscription.notification_index = some 0 ∧
    ((PutOperation wStoreSub 100 7 c2opReq 50 60).1.get_subscription 1).map
      Subscription.notification_index = some 0 := by decide

/-- Witness for `c4_notification_index_constant` at a concrete operation
PUT. -/
theorem c4_notification_index_constant_witness : NotifIdxPreserved wStoreSub c2s2 := by
  have hwf : SubIdsMatch wStoreSub := by
    intro k sub h
    by_cases hk : k = 1
    · subst hk
      rw [show mlookup wStoreSub.subscriptions 1 = some wSub from rfl] at h
      injection h with h
      rw [← h]
      rfl
    · have h2 : mlookup [(1, wSub)] k = some sub := h
      simp [mlookup, hk] at h2
  exact (c4_notification_index_constant wStoreSub 100 7 50 60 c2opReq c2subReq 0 hwf).2.2.1
    c2s2 (.ok c2r2) (by decide)

/-! ## Cell-index characterization lemmas -/

theorem removeSubCell_lookup_self (id : Nat) (m : List (Nat × CellContents)) (cell : Nat) :
    mlookup (removeSubCell id m cell) cell =
      match mlookup m cell with
      | none => none
      | some bucket =>
        if ({ bucket with subscription_ids := bucket.subscription_ids.erase id }
              : CellContents).is_empty = true then none
        else some { bucket with subscription_ids := bucket.subscription_ids.erase id } := by
  unfold removeSubCell
  cases hl : mlookup m cell with
  | none => simp only [hl]
  | some bucket =>
    simp only [hl]
    by_cases hemp : ({ bucket with subscription_ids := bucket.subscription_ids.erase id }
        : CellContents).is_empty = true
    · rw [if_pos hemp, if_pos hemp]
      exact mlookup_merase_self _ _
    · rw [if_neg hemp, if_neg hemp]
      exact mlookup_minsert_self _ _ _

theorem removeSubCell_lookup_ne (id : Nat) (m : List (Nat × CellContents)) (cell c : Nat)
    (h : c ≠ cell) : mlookup (removeSubCell id m cell) c = mlookup m c := by
  unfold removeSubCell
  cases hl : mlookup m cell with
  | none => rfl
  | some bucket =>
    simp only []
    by_cases hemp : ({ bucket with subscription_ids := bucket.subscription_ids.erase id }
        : CellContents).is_empty = true
    · rw [if_pos hemp]
      exact mlookup_merase_ne _ _ _ h
    · rw [if_neg hemp]
      exact mlookup_minsert_ne _ _ _ _ h

theorem removeOpCell_lookup_self (id : Nat) (m : List (Nat × CellContents)) (cell : Nat) :
    mlookup (removeOpCell id m cell) cell =
      match mlookup m cell with
      | none => none
      | some bucket =>
        if ({ bucket with operation_ids := bucket.operation_ids.erase id }
              : CellContents).is_empty = true then none
        else some { bucket with operation_ids := bucket.operation_ids.erase id } := by
  unfold removeOpCell
  cases hl : mlookup m cell with
  | none => simp only [hl]
  | some bucket =>
    simp only [hl]
    by_cases hemp : ({ bucket with operation_ids := bucket.operation_ids.erase id }
        : CellContents).is_empty = true
    · rw [if_pos hemp, if_pos hemp]
      exact mlookup_merase_self _ _
    · rw [if_neg hemp, if_neg hemp]
      exact mlookup_minsert_self _ _ _

theorem removeOpCell_lookup_ne (id : Nat) (m : List (Nat × CellContents)) (cell c : Nat)
    (h : c ≠ cell) : mlookup (removeOpCell id m cell) c = mlookup m c := by
  unfold removeOpCell
  cases hl : mlookup m cell with
  | none => rfl
  | some bucket =>
    simp only []
    by_cases hemp : ({ bucket with operation_ids := bucket.operation_ids.erase id }
        : CellContents).is_empty = true
    · rw [if_pos hemp]
      exact mlookup_merase_ne _ _ _ h
    · rw [if_neg hemp]
      exact mlookup_minsert_ne _ _ _ _ h

theorem addSubCell_lookup_self (id : Nat) (m : List (Nat × CellContents)) (cell : Nat) :
    mlookup (addSubCell id m cell) cell =
      some { (mlookup m cell).getD ⟨∅, ∅⟩ with
        subscription_ids := insert id ((mlookup m cell).getD ⟨∅, ∅⟩).subscription_ids } := by
  unfold addSubCell
  exact mlookup_minsert_self _ _ _

theorem addSubCell_lookup_ne (id : Nat) (m : List (Nat × CellContents)) (cell c : Nat)
    (h : c ≠ cell) : mlookup (addSubCell id m cell) c = mlookup m c := by
  unfold addSubCell
  exact mlookup_minsert_ne _ _ _ _ h

theorem addOpCell_lookup_self (id : Nat) (m : List (Nat × CellContents)) (cell : Nat) :
    mlookup (addOpCell id m cell) cell =
      some { (mlookup m cell).getD ⟨∅, ∅⟩ with
        operation_ids := insert id ((mlookup m cell).getD ⟨∅, ∅⟩).operation_ids } := by
  unfold addOpCell
  exact mlookup_minsert_self _ _ _

theorem addOpCell_lookup_ne (id : Nat) (m : List (Nat × CellContents)) (cell c : Nat)
    (h : c ≠ cell) : mlookup (addOpCell id m cell) c = mlookup m c := by
  unfold addOpCell
  exact mlookup_minsert_ne _ _ _ _ h

/-- Lookup after folding a per-cell map update over a duplicate-free cell
list: the key's own transformation fires at most once. -/
theorem foldl_lookup_char (step : List (Nat × CellContents) → Nat → List (Nat × CellContents))
    (g : Nat → Option CellContents → Option CellContents)
    (hself : ∀ m cell, mlookup (step m cell) cell = g cell (mlookup m cell))
    (hne : ∀ m cell c, c ≠ cell → mlookup (step m cell) c = mlookup m c) :
    ∀ (cs : List Nat), cs.Nodup → ∀ m c,
      mlookup (cs.foldl step m) c = if c ∈ cs then g c (mlookup m c) else mlookup m c := by
  intro cs
  induction cs with
  | nil =>
    intro _ m c
    simp
  | cons cell cs ih =>
    intro hnd m c
    rcases List.nodup_cons.mp hnd with ⟨hni, hnd2⟩
    rw [List.foldl_cons]
    by_cases hc : c = cell
    · subst hc
      rw [ih hnd2, if_neg hni, hself, if_pos (List.mem_cons_self _ _)]
    · rw [ih hnd2, hne m cell c hc]
      by_cases hcs : c ∈ cs
      · rw [if_pos hcs, if_pos (List.mem_cons_of_mem _ hcs)]
      · rw [if_neg hcs, if_neg (by intro hmem; rcases List.mem_cons.mp hmem with h1 | h2
                                   exacts [hc h1, hcs h2])]

/-- Key-distinctness is preserved by folding key-preserving map updates. -/
theorem foldl_keysNodup (step : List (Nat × CellContents) → Nat → List (Nat × CellContents))
    (hstep : ∀ m cell, mkeysNodup m → mkeysNodup (step m cell)) :
    ∀ (cs : List Nat) (m : List (Nat × CellContents)), mkeysNodup m →
      mkeysNodup (cs.foldl step m) := by
  intro cs
  induction cs with
  | nil => intro m hm; exact hm
  | cons cell cs ih =>
    intro m hm
    rw [List.foldl_cons]
    exact ih _ (hstep m cell hm)

theorem removeSubCell_keysNodup (id : Nat) (m : List (Nat × CellContents)) (cell : Nat)
    (h : mkeysNodup m) : mkeysNodup (removeSubCell id m cell) := by
  unfold removeSubCell
  cases mlookup m cell with
  | none => exact h
  | some bucket =>
    simp only []
    split
    · exact mkeysNodup_merase _ _ h
    · exact mkeysNodup_minsert _ _ _ h

theorem removeOpCell_keysNodup (id : Nat) (m : List (Nat × CellContents)) (cell : Nat)
    (h : mkeysNodup m) : mkeysNodup (removeOpCell id m cell) := by
  unfold removeOpCell
  cases mlookup m cell with
  | none => exact h
  | some bucket =>
    simp only []
    split
    · exact mkeysNodup_merase _ _ h
    · exact mkeysNodup_minsert _ _ _ h

theorem addSubCell_keysNodup (id : Nat) (m : List (Nat × CellContents)) (cell : Nat)
    (h : mkeysNodup m) : mkeysNodup (addSubCell id m cell) :=
  mkeysNodup_minsert _ _ _ h

theorem addOpCell_keysNodup (id : Nat) (m : List (Nat × CellContents)) (cell : Nat)
    (h : mkeysNodup m) : mkeysNodup (addOpCell id m cell) :=
  mkeysNodup_minsert _ _ _ h

/-! ## C8: the cell-index invariant -/

/-- Representation hygiene of the store: each assoc list has pairwise
distinct keys (it models a Python dict) and each entity is stored under its
own id (the dicts are keyed by `subscription.id` / `operation.id`). -/
def StoreWF (s : MemoryScdStorage) : Prop :=
  mkeysNodup s.subscriptions ∧ mkeysNodup s.operations ∧ mkeysNodup s.cells ∧
  (∀ p ∈ s.subscriptions, (p.2 : Subscription).id = p.1) ∧
  (∀ p ∈ s.operations, (p.2 : Operation).id = p.1)

/-- The cell-index invariant of §8: every bucket in the cell map is
non-empty, every id a bucket lists belongs to a stored entity whose volume
covers that cell, and conversely every stored entity is listed in the bucket
of each cell of its volume (so a cell is indexed iff some entity covers it,
and a bucket lists E's id iff the cell is in E's footprint). -/
def CellIndexInv (s : MemoryScdStorage) : Prop :=
  (∀ p ∈ s.cells, (p.2 : CellContents).is_empty = false) ∧
  (∀ p ∈ s.cells, ∀ i ∈ (p.2 : CellContents).subscription_ids,
     ∃ q ∈ s.subscriptions, q.1 = i ∧ p.1 ∈ (q.2 : Subscription).vol4.cells) ∧
  (∀ p ∈ s.cells, ∀ i ∈ (p.2 : CellContents).operation_ids,
     ∃ q ∈ s.operations, q.1 = i ∧ p.1 ∈ (q.2 : Operation).vol4.cells) ∧
  (∀ q ∈ s.subscriptions, ∀ c ∈ (q.2 : Subscription).vol4.cells,
     ∃ p ∈ s.cells, p.1 = c ∧ q.1 ∈ (p.2 : CellContents).subscription_ids) ∧
  (∀ q ∈ s.operations, ∀ c ∈ (q.2 : Operation).vol4.cells,
     ∃ p ∈ s.cells, p.1 = c ∧ q.1 ∈ (p.2 : CellContents).operation_ids)

/-- The same invariant phrased through `mlookup`, the form the update
characterization lemmas speak; equivalent under `StoreWF`. -/
def CellIndexInvL (s : MemoryScdStorage) : Prop :=
  (∀ c bucket, mlookup s.cells c = some bucket →
     (bucket : CellContents).is_empty = false ∧
     (∀ i ∈ bucket.subscription_ids,
        ∃ sub, mlookup s.subscriptions i = some sub ∧ c ∈ sub.vol4.cells) ∧
     (∀ i ∈ bucket.operation_ids,
        ∃ op, mlookup s.operations i = some op ∧ c ∈ op.vol4.cells)) ∧
  (∀ i sub, mlookup s.subscriptions i = some sub →
     ∀ c ∈ (sub : Subscription).vol4.cells,
       ∃ bucket, mlookup s.cells c = some bucket ∧ i ∈ bucket.subscription_ids) ∧
  (∀ i op, mlookup s.operations i = some op →
     ∀ c ∈ (op : Operation).vol4.cells,
       ∃ bucket, mlookup s.cells c = some bucket ∧ i ∈ bucket.operation_ids)

instance {β : Type} (m : List (Nat × β)) : Decidable (mkeysNodup m) := by
  unfold mkeysNodup
  infer_instance

instance (s : MemoryScdStorage) : Decidable (StoreWF s) := by
  unfold StoreWF
  infer_instance

instance (s : MemoryScdStorage) : Decidable (CellIndexInv s) := by
  unfold CellIndexInv
  infer_instance

theorem CellContents.is_empty_iff (c : CellContents) :
    c.is_empty = true ↔ c.subscription_ids = ∅ ∧ c.operation_ids = ∅ := by
  simp [CellContents.is_empty]

theorem mem_minsert {β : Type} (k : Nat) (v : β) (m : List (Nat × β)) (p : Nat × β)
    (h : p ∈ minsert k v m) : p = (k, v) ∨ p ∈ m := by
  unfold minsert at h
  rcases List.mem_cons.mp h with h1 | h2
  · exact Or.inl h1
  · exact Or.inr (List.mem_filter.mp h2).1

theorem mem_merase {β : Type} (k : Nat) (m : List (Nat × β)) (p : Nat × β)
    (h : p ∈ merase k m) : p ∈ m :=
  (List.mem_filter.mp h).1

theorem minsert_merase {β : Type} (k : Nat) (v : β) (m : List (Nat × β)) :
    minsert k v (merase k m) = minsert k v m := by
  unfold minsert merase
  rw [List.filter_filter]
  congr 1
  apply List.filter_congr
  intro a _
  exact Bool.and_self _

theorem removeSubscriptionFromCells_lookup (cells : List (Nat × CellContents))
    (sub : Subscription) (c : Nat) :
    mlookup (removeSubscriptionFromCells cells sub) c =
      if c ∈ sub.vol4.cells then
        match mlookup cells c with
        | none => none
        | some bucket =>
          if ({ bucket with subscription_ids := bucket.subscription_ids.erase sub.id }
                : CellContents).is_empty = true then none
          else some { bucket with subscription_ids := bucket.subscription_ids.erase sub.id }
      else mlookup cells c := by
  unfold removeSubscriptionFromCells
  rw [foldl_lookup_char (removeSubCell sub.id)
    (fun _ ob => match ob with
      | none => none
      | some bucket =>
        if ({ bucket with subscription_ids := bucket.subscription_ids.erase sub.id }
              : CellContents).is_empty = true then none
        else some { bucket with subscription_ids := bucket.subscription_ids.erase sub.id })
    (fun m cell => removeSubCell_lookup_self sub.id m cell)
    (fun m cell c h => removeSubCell_lookup_ne sub.id m cell c h)
    (sortedCells sub.vol4.cells) (sortedCells_nodup _) cells c]
  by_cases hc : c ∈ sub.vol4.cells
  · rw [if_pos ((mem_sortedCells _ _).mpr hc), if_pos hc]
  · rw [if_neg (fun h2 => hc ((mem_sortedCells _ _).mp h2)), if_neg hc]

theorem removeOperationFromCells_lookup (cells : List (Nat × CellContents))
    (op : Operation) (c : Nat) :
    mlookup (removeOperationFromCells cells op) c =
      if c ∈ op.vol4.cells then
        match mlookup cells c with
        | none => none
        | some bucket =>
          if ({ bucket with operation_ids := bucket.operation_ids.erase op.id }
                : CellContents).is_empty = true then none
          else some { bucket with operation_ids := bucket.operation_ids.erase op.id }
      else mlookup cells c := by
  unfold removeOperationFromCells
  rw [foldl_lookup_char (removeOpCell op.id)
    (fun _ ob => match ob with
      | none => none
      | some bucket =>
        if ({ bucket with operation_ids := bucket.operation_ids.erase op.id }
              : CellContents).is_empty = true then none
        else some { bucket with operation_ids := bucket.operation_ids.erase op.id })
    (fun m cell => removeOpCell_lookup_self op.id m cell)
    (fun m cell c h => removeOpCell_lookup_ne op.id m cell c h)
    (sortedCells op.vol4.cells) (sortedCells_nodup _) cells c]
  by_cases hc : c ∈ op.vol4.cells
  · rw [if_pos ((mem_sortedCells _ _).mpr hc), if_pos hc]
  · rw [if_neg (fun h2 => hc ((mem_sortedCells _ _).mp h2)), if_neg hc]

theorem addSubCellsFold_lookup (cells : List (Nat × CellContents)) (id : Nat)
    (cs : Finset Nat) (c : Nat) :
    mlookup ((sortedCells cs).foldl (addSubCell id) cells) c =
      if c ∈ cs then
        some { (mlookup cells c).getD ⟨∅, ∅⟩ with
          subscription_ids := insert id ((mlookup cells c).getD ⟨∅, ∅⟩).subscription_ids }
      else mlookup cells c := by
  rw [foldl_lookup_char (addSubCell id)
    (fun _ ob => some { ob.getD ⟨∅, ∅⟩ with
      subscription_ids := insert id (ob.getD ⟨∅, ∅⟩).subscription_ids })
    (fun m cell => addSubCell_lookup_self id m cell)
    (fun m cell c h => addSubCell_lookup_ne id m cell c h)
    (sortedCells cs) (sortedCells_nodup _) cells c]
  by_cases hc : c ∈ cs
  · rw [if_pos ((mem_sortedCells _ _).mpr hc), if_pos hc]
  · rw [if_neg (fun h2 => hc ((mem_sortedCells _ _).mp h2)), if_neg hc]

theorem addOpCellsFold_lookup (cells : List (Nat × CellContents)) (id : Nat)
    (cs : Finset Nat) (c : Nat) :
    mlookup ((sortedCells cs).foldl (addOpCell id) cells) c =
      if c ∈ cs then
        some { (mlookup cells c).getD ⟨∅, ∅⟩ with
          operation_ids := insert id ((mlookup cells c).getD ⟨∅, ∅⟩).operation_ids }
      else mlookup cells c := by
  rw [foldl_lookup_char (addOpCell id)
    (fun _ ob => some { ob.getD ⟨∅, ∅⟩ with
      operation_ids := insert id (ob.getD ⟨∅, ∅⟩).operation_ids })
    (fun m cell => addOpCell_lookup_self id m cell)
    (fun m cell c h => addOpCell_lookup_ne id m cell c h)
    (sortedCells cs) (sortedCells_nodup _) cells c]
  by_cases hc : c ∈ cs
  · rw [if_pos ((mem_sortedCells _ _).mpr hc), if_pos hc]
  · rw [if_neg (fun h2 => hc ((mem_sortedCells _ _).mp h2)), if_neg hc]

theorem removeSubscriptionFromCells_keysNodup (cells : List (Nat × CellContents))
    (sub : Subscription) (h : mkeysNodup cells) :
    mkeysNodup (removeSubscriptionFromCells cells sub) :=
  foldl_keysNodup (removeSubCell sub.id)
    (fun m cell hm => removeSubCell_keysNodup sub.id m cell hm)
    (sortedCells sub.vol4.cells) cells h

theorem removeOperationFromCells_keysNodup (cells : List (Nat × CellContents))
    (op : Operation) (h : mkeysNodup cells) :
    mkeysNodup (removeOperationFromCells cells op) :=
  foldl_keysNodup (removeOpCell op.id)
    (fun m cell hm => removeOpCell_keysNodup op.id m cell hm)
    (sortedCells op.vol4.cells) cells h

theorem addSubCellsFold_keysNodup (cells : List (Nat × CellContents)) (id : Nat)
    (cs : Finset Nat) (h : mkeysNodup cells) :
    mkeysNodup ((sortedCells cs).foldl (addSubCell id) cells) :=
  foldl_keysNodup (addSubCell id)
    (fun m cell hm => addSubCell_keysNodup id m cell hm)
    (sortedCells cs) cells h

theorem addOpCellsFold_keysNodup (cells : List (Nat × CellContents)) (id : Nat)
    (cs : Finset Nat) (h : mkeysNodup cells) :
    mkeysNodup ((sortedCells cs).foldl (addOpCell id) cells) :=
  foldl_keysNodup (addOpCell id)
    (fun m cell hm => addOpCell_keysNodup id m cell hm)
    (sortedCells cs) cells h

/-- Removing a stored subscription's footprint from the index (delete path,
and the first half of an upsert) preserves the cell-index invariant, with
the subscription simultaneously removed from the entity map. -/
theorem cellInvL_remove_sub (subs : List (Nat × Subscription))
    (ops : List (Nat × Operation)) (cells : List (Nat × CellContents))
    (old : Subscription)
    (hold : mlookup subs old.id = some old)
    (hinv : CellIndexInvL ⟨subs, ops, cells⟩) :
    CellIndexInvL ⟨merase old.id subs, ops, removeSubscriptionFromCells cells old⟩ := by
  unfold CellIndexInvL at hinv ⊢
  dsimp only at hinv ⊢
  obtain ⟨h1, h2, h3⟩ := hinv
  refine ⟨?_, ?_, ?_⟩
  · intro c bucket' h'
    rw [removeSubscriptionFromCells_lookup] at h'
    by_cases hc : c ∈ old.vol4.cells
    · rw [if_pos hc] at h'
      cases hl : mlookup cells c with
      | none =>
        rw [hl] at h'
        exact Option.noConfusion h'
      | some b0 =>
        simp only [hl] at h'
        split at h'
        · exact Option.noConfusion h'
        · rename_i hemp
          obtain rfl := Option.some.inj h'
          obtain ⟨hbe, hbs, hbo⟩ := h1 c b0 hl
          refine ⟨Bool.eq_false_iff.mpr hemp, ?_, ?_⟩
          · intro i hi
            obtain ⟨hine, hi0⟩ := Finset.mem_erase.mp hi
            obtain ⟨v, hv, hcv⟩ := hbs i hi0
            refine ⟨v, ?_, hcv⟩
            rw [mlookup_merase_ne subs old.id i hine]
            exact hv
          · intro i hi
            exact hbo i hi
    · rw [if_neg hc] at h'
      obtain ⟨hbe, hbs, hbo⟩ := h1 c bucket' h'
      refine ⟨hbe, ?_, hbo⟩
      intro i hi
      obtain ⟨v, hv, hcv⟩ := hbs i hi
      have hine : i ≠ old.id := by
        intro he
        rw [he, hold] at hv
        obtain rfl := Option.some.inj hv
        exact hc hcv
      refine ⟨v, ?_, hcv⟩
      rw [mlookup_merase_ne subs old.id i hine]
      exact hv
  · intro i v hiv c hcv
    have hine : i ≠ old.id := by
      intro he
      rw [he, mlookup_merase_self] at hiv
      exact Option.noConfusion hiv
    rw [mlookup_merase_ne subs old.id i hine] at hiv
    obtain ⟨b0, hb0, hib0⟩ := h2 i v hiv c hcv
    rw [removeSubscriptionFromCells_lookup]
    by_cases hc : c ∈ old.vol4.cells
    · rw [if_pos hc]
      simp only [hb0]
      have hne : ({ b0 with subscription_ids := b0.subscription_ids.erase old.id }
          : CellContents).is_empty ≠ true := by
        intro he
        obtain ⟨he1, _⟩ := (CellContents.is_empty_iff _).mp he
        have he1b : b0.subscription_ids.erase old.id = ∅ := he1
        have hmem : i ∈ b0.subscription_ids.erase old.id :=
          Finset.mem_erase.mpr ⟨hine, hib0⟩
        rw [he1b] at hmem
        exact absurd hmem (Finset.not_mem_empty i)
      rw [if_neg hne]
      exact ⟨_, rfl, Finset.mem_erase.mpr ⟨hine, hib0⟩⟩
    · rw [if_neg hc]
      exact ⟨b0, hb0, hib0⟩
  · intro i op hiop c hcop
    obtain ⟨b0, hb0, hib0⟩ := h3 i op hiop c hcop
    rw [removeSubscriptionFromCells_lookup]
    by_cases hc : c ∈ old.vol4.cells
    · rw [if_pos hc]
      simp only [hb0]
      have hne : ({ b0 with subscription_ids := b0.subscription_ids.erase old.id }
          : CellContents).is_empty ≠ true := by
        intro he
        obtain ⟨_, he2⟩ := (CellContents.is_empty_iff _).mp he
        have he2b : b0.operation_ids = ∅ := he2
        rw [he2b] at hib0
        exact absurd hib0 (Finset.not_mem_empty i)
      rw [if_neg hne]
      exact ⟨_, rfl, hib0⟩
    · rw [if_neg hc]
      exact ⟨b0, hb0, hib0⟩

theorem is_empty_false_of_sub_mem (b : CellContents) (i : Nat)
    (h : i ∈ b.subscription_ids) : b.is_empty = false := by
  apply Bool.eq_false_iff.mpr
  intro he
  obtain ⟨h1, _⟩ := (CellContents.is_empty_iff _).mp he
  rw [h1] at h
  exact Finset.not_mem_empty _ h

theorem is_empty_false_of_op_mem (b : CellContents) (i : Nat)
    (h : i ∈ b.operation_ids) : b.is_empty = false := by
  apply Bool.eq_false_iff.mpr
  intro he
  obtain ⟨_, h2⟩ := (CellContents.is_empty_iff _).mp he
  rw [h2] at h
  exact Finset.not_mem_empty _ h

/-- Registering a fresh subscription's footprint in the index (the second
half of an upsert) preserves the cell-index invariant. -/
theorem cellInvL_add_sub (subs : List (Nat × Subscription))
    (ops : List (Nat × Operation)) (cells : List (Nat × CellContents))
    (sub : Subscription)
    (hfresh : mlookup subs sub.id = none)
    (hinv : CellIndexInvL ⟨subs, ops, cells⟩) :
    CellIndexInvL ⟨minsert sub.id sub subs, ops,
      (sortedCells sub.vol4.cells).foldl (addSubCell sub.id) cells⟩ := by
  unfold CellIndexInvL at hinv ⊢
  dsimp only at hinv ⊢
  obtain ⟨h1, h2, h3⟩ := hinv
  refine ⟨?_, ?_, ?_⟩
  · intro c bucket' h'
    rw [addSubCellsFold_lookup] at h'
    by_cases hc : c ∈ sub.vol4.cells
    · rw [if_pos hc] at h'
      obtain rfl := Option.some.inj h'
      cases hl : mlookup cells c with
      | none =>
        refine ⟨is_empty_false_of_sub_mem _ sub.id ?_, ?_, ?_⟩
        · exact Finset.mem_insert_self _ _
        · intro i hi
          rcases Finset.mem_insert.mp hi with hi1 | hi2
          · subst hi1
            exact ⟨sub, mlookup_minsert_self _ _ _, hc⟩
          · exact absurd hi2 (Finset.not_mem_empty i)
        · intro i hi
          exact absurd hi (Finset.not_mem_empty i)
      | some b0 =>
        obtain ⟨hbe, hbs, hbo⟩ := h1 c b0 hl
        refine ⟨is_empty_false_of_sub_mem _ sub.id ?_, ?_, ?_⟩
        · exact Finset.mem_insert_self _ _
        · intro i hi
          rcases Finset.mem_insert.mp hi with hi1 | hi2
          · subst hi1
            exact ⟨sub, mlookup_minsert_self _ _ _, hc⟩
          · obtain ⟨v, hv, hcv⟩ := hbs i hi2
            have hine : i ≠ sub.id := by
              intro he
              rw [he, hfresh] at hv
              exact Option.noConfusion hv
            refine ⟨v, ?_, hcv⟩
            rw [mlookup_minsert_ne subs sub.id i sub hine]
            exact hv
        · intro i hi
          exact hbo i hi
    · rw [if_neg hc] at h'
      obtain ⟨hbe, hbs, hbo⟩ := h1 c bucket' h'
      refine ⟨hbe, ?_, hbo⟩
      intro i hi
      obtain ⟨v, hv, hcv⟩ := hbs i hi
      have hine : i ≠ sub.id := by
        intro he
        rw [he, hfresh] at hv
        exact Option.noConfusion hv
      refine ⟨v, ?_, hcv⟩
      rw [mlookup_minsert_ne subs sub.id i sub hine]
      exact hv
  · intro i v hiv c hcv
    by_cases his : i = sub.id
    · subst his
      rw [mlookup_minsert_self] at hiv
      obtain rfl := Option.some.inj hiv
      rw [addSubCellsFold_lookup, if_pos hcv]
      exact ⟨_, rfl, Finset.mem_insert_self _ _⟩
    · rw [mlookup_minsert_ne subs sub.id i sub his] at hiv
      obtain ⟨b0, hb0, hib0⟩ := h2 i v hiv c hcv
      rw [addSubCellsFold_lookup]
      by_cases hc : c ∈ sub.vol4.cells
      · rw [if_pos hc]
        simp only [hb0]
        exact ⟨_, rfl, Finset.mem_insert_of_mem hib0⟩
      · rw [if_neg hc]
        exact ⟨b0, hb0, hib0⟩
  · intro i op hiop c hcop
    obtain ⟨b0, hb0, hib0⟩ := h3 i op hiop c hcop
    rw [addSubCellsFold_lookup]
    by_cases hc : c ∈ sub.vol4.cells
    · rw [if_pos hc]
      simp only [hb0]
      exact ⟨_, rfl, hib0⟩
    · rw [if_neg hc]
      exact ⟨b0, hb0, hib0⟩

/-- Removing a stored operation's footprint from the index preserves the
cell-index invariant, with the operation removed from the entity map. -/
theorem cellInvL_remove_op (subs : List (Nat × Subscription))
    (ops : List (Nat × Operation)) (cells : List (Nat × CellContents))
    (old : Operation)
    (hold : mlookup ops old.id = some old)
    (hinv : CellIndexInvL ⟨subs, ops, cells⟩) :
    CellIndexInvL ⟨subs, merase old.id ops, removeOperationFromCells cells old⟩ := by
  unfold CellIndexInvL at hinv ⊢
  dsimp only at hinv ⊢
  obtain ⟨h1, h2, h3⟩ := hinv
  refine ⟨?_, ?_, ?_⟩
  · intro c bucket' h'
    rw [removeOperationFromCells_lookup] at h'
    by_cases hc : c ∈ old.vol4.cells
    · rw [if_pos hc] at h'
      cases hl : mlookup cells c with
      | none =>
        rw [hl] at h'
        exact Option.noConfusion h'
      | some b0 =>
        simp only [hl] at h'
        split at h'
        · exact Option.noConfusion h'
        · rename_i hemp
          obtain rfl := Option.some.inj h'
          obtain ⟨hbe, hbs, hbo⟩ := h1 c b0 hl
          refine ⟨Bool.eq_false_iff.mpr hemp, ?_, ?_⟩
          · intro i hi
            exact hbs i hi
          · intro i hi
            obtain ⟨hine, hi0⟩ := Finset.mem_erase.mp hi
            obtain ⟨v, hv, hcv⟩ := hbo i hi0
            refine ⟨v, ?_, hcv⟩
            rw [mlookup_merase_ne ops old.id i hine]
            exact hv
    · rw [if_neg hc] at h'
      obtain ⟨hbe, hbs, hbo⟩ := h1 c bucket' h'
      refine ⟨hbe, hbs, ?_⟩
      intro i hi
      obtain ⟨v, hv, hcv⟩ := hbo i hi
      have hine : i ≠ old.id := by
        intro he
        rw [he, hold] at hv
        obtain rfl := Option.some.inj hv
        exact hc hcv
      refine ⟨v, ?_, hcv⟩
      rw [mlookup_merase_ne ops old.id i hine]
      exact hv
  · intro i v hiv c hcv
    obtain ⟨b0, hb0, hib0⟩ := h2 i v hiv c hcv
    rw [removeOperationFromCells_lookup]
    by_cases hc : c ∈ old.vol4.cells
    · rw [if_pos hc]
      simp only [hb0]
      have hne : ({ b0 with operation_ids := b0.operation_ids.erase old.id }
          : CellContents).is_empty ≠ true := by
        intro he
        obtain ⟨he1, _⟩ := (CellContents.is_empty_iff _).mp he
        have he1b : b0.subscription_ids = ∅ := he1
        rw [he1b] at hib0
        exact absurd hib0 (Finset.not_mem_empty i)
      rw [if_neg hne]
      exact ⟨_, rfl, hib0⟩
    · rw [if_neg hc]
      exact ⟨b0, hb0, hib0⟩
  · intro i op hiop c hcop
    have hine : i ≠ old.id := by
      intro he
      rw [he, mlookup_merase_self] at hiop
      exact Option.noConfusion hiop
    rw [mlookup_merase_ne ops old.id i hine] at hiop
    obtain ⟨b0, hb0, hib0⟩ := h3 i op hiop c hcop
    rw [removeOperationFromCells_lookup]
    by_cases hc : c ∈ old.vol4.cells
    · rw [if_pos hc]
      simp only [hb0]
      have hne : ({ b0 with operation_ids := b0.operation_ids.erase old.id }
          : CellContents).is_empty ≠ true := by
        intro he
        obtain ⟨_, he2⟩ := (CellContents.is_empty_iff _).mp he
        have he2b : b0.operation_ids.erase old.id = ∅ := he2
        have hmem : i ∈ b0.operation_ids.erase old.id :=
          Finset.mem_erase.mpr ⟨hine, hib0⟩
        rw [he2b] at hmem
        exact absurd hmem (Finset.not_mem_empty i)
      rw [if_neg hne]
      exact ⟨_, rfl, Finset.mem_erase.mpr ⟨hine, hib0⟩⟩
    · rw [if_neg hc]
      exact ⟨b0, hb0, hib0⟩

/-- Registering a fresh operation's footprint in the index preserves the
cell-index invariant. -/
theorem cellInvL_add_op (subs : List (Nat × Subscription))
    (ops : List (Nat × Operation)) (cells : List (Nat × CellContents))
    (op : Operation)
    (hfresh : mlookup ops op.id = none)
    (hinv : CellIndexInvL ⟨subs, ops, cells⟩) :
    CellIndexInvL ⟨subs, minsert op.id op ops,
      (sortedCells op.vol4.cells).foldl (addOpCell op.id) cells⟩ := by
  unfold CellIndexInvL at hinv ⊢
  dsimp only at hinv ⊢
  obtain ⟨h1, h2, h3⟩ := hinv
  refine ⟨?_, ?_, ?_⟩
  · intro c bucket' h'
    rw [addOpCellsFold_lookup] at h'
    by_cases hc : c ∈ op.vol4.cells
    · rw [if_pos hc] at h'
      obtain rfl := Option.some.inj h'
      cases hl : mlookup cells c with
      | none =>
        refine ⟨is_empty_false_of_op_mem _ op.id ?_, ?_, ?_⟩
        · exact Finset.mem_insert_self _ _
        · intro i hi
          exact absurd hi (Finset.not_mem_empty i)
        · intro i hi
          rcases Finset.mem_insert.mp hi with hi1 | hi2
          · subst hi1
            exact ⟨op, mlookup_minsert_self _ _ _, hc⟩
          · exact absurd hi2 (Finset.not_mem_empty i)
      | some b0 =>
        obtain ⟨hbe, hbs, hbo⟩ := h1 c b0 hl
        refine ⟨is_empty_false_of_op_mem _ op.id ?_, ?_, ?_⟩
        · exact Finset.mem_insert_self _ _
        · intro i hi
          exact hbs i hi
        · intro i hi
          rcases Finset.mem_insert.mp hi with hi1 | hi2
          · subst hi1
            exact ⟨op, mlookup_minsert_self _ _ _, hc⟩
          · obtain ⟨v, hv, hcv⟩ := hbo i hi2
            have hine : i ≠ op.id := by
              intro he
              rw [he, hfresh] at hv
              exact Option.noConfusion hv
            refine ⟨v, ?_, hcv⟩
            rw [mlookup_minsert_ne ops op.id i op hine]
            exact hv
    · rw [if_neg hc] at h'
      obtain ⟨hbe, hbs, hbo⟩ := h1 c bucket' h'
      refine ⟨hbe, hbs, ?_⟩
      intro i hi
      obtain ⟨v, hv, hcv⟩ := hbo i hi
      have hine : i ≠ op.id := by
        intro he
        rw [he, hfresh] at hv
        exact Option.noConfusion hv
      refine ⟨v, ?_, hcv⟩
      rw [mlookup_minsert_ne ops op.id i op hine]
      exact hv
  · intro i v hiv c hcv
    obtain ⟨b0, hb0, hib0⟩ := h2 i v hiv c hcv
    rw [addOpCellsFold_lookup]
    by_cases hc : c ∈ op.vol4.cells
    · rw [if_pos hc]
      simp only [hb0]
      exact ⟨_, rfl, hib0⟩
    · rw [if_neg hc]
      exact ⟨b0, hb0, hib0⟩
  · intro i v hiv c hcv
    by_cases his : i = op.id
    · subst his
      rw [mlookup_minsert_self] at hiv
      obtain rfl := Option.some.inj hiv
      rw [addOpCellsFold_lookup, if_pos hcv]
      exact ⟨_, rfl, Finset.mem_insert_self _ _⟩
    · rw [mlookup_minsert_ne ops op.id i op his] at hiv
      obtain ⟨b0, hb0, hib0⟩ := h3 i v hiv c hcv
      rw [addOpCellsFold_lookup]
      by_cases hc : c ∈ op.vol4.cells
      · rw [if_pos hc]
        simp only [hb0]
        exact ⟨_, rfl, Finset.mem_insert_of_mem hib0⟩
      · rw [if_neg hc]
        exact ⟨b0, hb0, hib0⟩

theorem upsert_subscription_wf (s : MemoryScdStorage) (sub : Subscription)
    (hwf : StoreWF s) : StoreWF (s.upsert_subscription sub) := by
  obtain ⟨hndS, hndO, hndC, hidS, hidO⟩ := hwf
  unfold StoreWF MemoryScdStorage.upsert_subscription
  dsimp only
  refine ⟨mkeysNodup_minsert _ _ _ hndS, hndO, ?_, ?_, hidO⟩
  · cases hold : mlookup s.subscriptions sub.id with
    | none => exact addSubCellsFold_keysNodup _ _ _ hndC
    | some old =>
      exact addSubCellsFold_keysNodup _ _ _
        (removeSubscriptionFromCells_keysNodup _ _ hndC)
  · intro p hp
    rcases mem_minsert _ _ _ p hp with h1 | h2
    · subst h1
      rfl
    · exact hidS p h2

theorem upsert_operation_wf (s : MemoryScdStorage) (op : Operation)
    (hwf : StoreWF s) : StoreWF (s.upsert_operation op) := by
  obtain ⟨hndS, hndO, hndC, hidS, hidO⟩ := hwf
  unfold StoreWF MemoryScdStorage.upsert_operation
  dsimp only
  refine ⟨hndS, mkeysNodup_minsert _ _ _ hndO, ?_, hidS, ?_⟩
  · cases hold : mlookup s.operations op.id with
    | none => exact addOpCellsFold_keysNodup _ _ _ hndC
    | some old =>
      exact addOpCellsFold_keysNodup _ _ _
        (removeOperationFromCells_keysNodup _ _ hndC)
  · intro p hp
    rcases mem_minsert _ _ _ p hp with h1 | h2
    · subst h1
      rfl
    · exact hidO p h2

theorem delete_subscription_wf (s : MemoryScdStorage) (id : Nat)
    (hwf : StoreWF s) : StoreWF (s.delete_subscription id) := by
  obtain ⟨hndS, hndO, hndC, hidS, hidO⟩ := hwf
  unfold MemoryScdStorage.delete_subscription
  cases hold : mlookup s.subscriptions id with
  | none => exact ⟨hndS, hndO, hndC, hidS, hidO⟩
  | some subscription =>
    refine ⟨mkeysNodup_merase _ _ hndS, hndO,
      removeSubscriptionFromCells_keysNodup _ _ hndC, ?_, hidO⟩
    intro p hp
    exact hidS p (mem_merase _ _ p hp)

theorem delete_operation_wf (s : MemoryScdStorage) (id : Nat)
    (hwf : StoreWF s) : StoreWF (s.delete_operation id) := by
  obtain ⟨hndS, hndO, hndC, hidS, hidO⟩ := hwf
  unfold MemoryScdStorage.delete_operation
  cases hold : mlookup s.operations id with
  | none => exact ⟨hndS, hndO, hndC, hidS, hidO⟩
  | some operation =>
    refine ⟨hndS, mkeysNodup_merase _ _ hndO,
      removeOperationFromCells_keysNodup _ _ hndC, hidS, ?_⟩
    intro p hp
    exact hidO p (mem_merase _ _ p hp)

theorem upsert_subscription_cellInvL (s : MemoryScdStorage) (sub : Subscription)
    (hwf : StoreWF s) (hinv : CellIndexInvL s) :
    CellIndexInvL (s.upsert_subscription sub) := by
  obtain ⟨hndS, hndO, hndC, hidS, hidO⟩ := hwf
  unfold MemoryScdStorage.upsert_subscription
  cases hold : mlookup s.subscriptions sub.id with
  | none => exact cellInvL_add_sub s.subscriptions s.operations s.cells sub hold hinv
  | some old =>
    have hmem : (sub.id, old) ∈ s.subscriptions := (mem_iff_mlookup _ hndS _ _).mpr hold
    have hid : old.id = sub.id := hidS (sub.id, old) hmem
    have hold2 : mlookup s.subscriptions old.id = some old := by
      rw [hid]
      exact hold
    have hmid := cellInvL_remove_sub s.subscriptions s.operations s.cells old hold2 hinv
    have hfresh : mlookup (merase old.id s.subscriptions) sub.id = none := by
      rw [hid]
      exact mlookup_merase_self _ _
    have hfinal := cellInvL_add_sub (merase old.id s.subscriptions) s.operations
      (removeSubscriptionFromCells s.cells old) sub hfresh hmid
    rw [hid, minsert_merase] at hfinal
    exact hfinal

theorem upsert_operation_cellInvL (s : MemoryScdStorage) (op : Operation)
    (hwf : StoreWF s) (hinv : CellIndexInvL s) :
    CellIndexInvL (s.upsert_operation op) := by
  obtain ⟨hndS, hndO, hndC, hidS, hidO⟩ := hwf
  unfold MemoryScdStorage.upsert_operation
  cases hold : mlookup s.operations op.id with
  | none => exact cellInvL_add_op s.subscriptions s.operations s.cells op hold hinv
  | some old =>
    have hmem : (op.id, old) ∈ s.operations := (mem_iff_mlookup _ hndO _ _).mpr hold
    have hid : old.id = op.id := hidO (op.id, old) hmem
    have hold2 : mlookup s.operations old.id = some old := by
      rw [hid]
      exact hold
    have hmid := cellInvL_remove_op s.subscriptions s.operations s.cells old hold2 hinv
    have hfresh : mlookup (merase old.id s.operations) op.id = none := by
      rw [hid]
      exact mlookup_merase_self _ _
    have hfinal := cellInvL_add_op s.subscriptions (merase old.id s.operations)
      (removeOperationFromCells s.cells old) op hfresh hmid
    rw [hid, minsert_merase] at hfinal
    exact hfinal

theorem delete_subscription_cellInvL (s : MemoryScdStorage) (id : Nat)
    (hwf : StoreWF s) (hinv : CellIndexInvL s) :
    CellIndexInvL (s.delete_subscription id) := by
  obtain ⟨hndS, hndO, hndC, hidS, hidO⟩ := hwf
  unfold MemoryScdStorage.delete_subscription
  cases hold : mlookup s.subscriptions id with
  | none => exact hinv
  | some subscription =>
    have hmem : (id, subscription) ∈ s.subscriptions := (mem_iff_mlookup _ hndS _ _).mpr hold
    have hid : subscription.id = id := hidS (id, subscription) hmem
    have hold2 : mlookup s.subscriptions subscription.id = some subscription := by
      rw [hid]
      exact hold
    have h := cellInvL_remove_sub s.subscriptions s.operations s.cells subscription hold2 hinv
    rw [hid] at h
    exact h

theorem delete_operation_cellInvL (s : MemoryScdStorage) (id : Nat)
    (hwf : StoreWF s) (hinv : CellIndexInvL s) :
    CellIndexInvL (s.delete_operation id) := by
  obtain ⟨hndS, hndO, hndC, hidS, hidO⟩ := hwf
  unfold MemoryScdStorage.delete_operation
  cases hold : mlookup s.operations id with
  | none => exact hinv
  | some operation =>
    have hmem : (id, operation) ∈ s.operations := (mem_iff_mlookup _ hndO _ _).mpr hold
    have hid : operation.id = id := hidO (id, operation) hmem
    have hold2 : mlookup s.operations operation.id = some operation := by
      rw [hid]
      exact hold
    have h := cellInvL_remove_op s.subscriptions s.operations s.cells operation hold2 hinv
    rw [hid] at h
    exact h

/-- Under `StoreWF`, the membership and lookup phrasings of the cell-index
invariant agree. -/
theorem cellIndexInv_iff_L (s : MemoryScdStorage) (hwf : StoreWF s) :
    CellIndexInv s ↔ CellIndexInvL s := by
  obtain ⟨hndS, hndO, hndC, _, _⟩ := hwf
  unfold CellIndexInv CellIndexInvL
  constructor
  · rintro ⟨h1, h2, h3, h4, h5⟩
    refine ⟨?_, ?_, ?_⟩
    · intro c bucket hl
      have hm : (c, bucket) ∈ s.cells := (mem_iff_mlookup _ hndC _ _).mpr hl
      refine ⟨h1 (c, bucket) hm, ?_, ?_⟩
      · intro i hi
        obtain ⟨q, hq, hqi, hqc⟩ := h2 (c, bucket) hm i hi
        obtain ⟨qk, qv⟩ := q
        subst hqi
        exact ⟨qv, (mem_iff_mlookup _ hndS _ _).mp hq, hqc⟩
      · intro i hi
        obtain ⟨q, hq, hqi, hqc⟩ := h3 (c, bucket) hm i hi
        obtain ⟨qk, qv⟩ := q
        subst hqi
        exact ⟨qv, (mem_iff_mlookup _ hndO _ _).mp hq, hqc⟩
    · intro i sub hl c hc
      have hm : (i, sub) ∈ s.subscriptions := (mem_iff_mlookup _ hndS _ _).mpr hl
      obtain ⟨p, hp, hpc, hpi⟩ := h4 (i, sub) hm c hc
      obtain ⟨pk, pv⟩ := p
      subst hpc
      exact ⟨pv, (mem_iff_mlookup _ hndC _ _).mp hp, hpi⟩
    · intro i op hl c hc
      have hm : (i, op) ∈ s.operations := (mem_iff_mlookup _ hndO _ _).mpr hl
      obtain ⟨p, hp, hpc, hpi⟩ := h5 (i, op) hm c hc
      obtain ⟨pk, pv⟩ := p
      subst hpc
      exact ⟨pv, (mem_iff_mlookup _ hndC _ _).mp hp, hpi⟩
  · rintro ⟨l1, l2, l3⟩
    refine ⟨?_, ?_, ?_, ?_, ?_⟩
    · intro p hp
      obtain ⟨ck, cb⟩ := p
      exact (l1 ck cb ((mem_iff_mlookup _ hndC _ _).mp hp)).1
    · intro p hp i hi
      obtain ⟨ck, cb⟩ := p
      obtain ⟨v, hv, hcv⟩ := (l1 ck cb ((mem_iff_mlookup _ hndC _ _).mp hp)).2.1 i hi
      exact ⟨(i, v), (mem_iff_mlookup _ hndS _ _).mpr hv, rfl, hcv⟩
    · intro p hp i hi
      obtain ⟨ck, cb⟩ := p
      obtain ⟨v, hv, hcv⟩ := (l1 ck cb ((mem_iff_mlookup _ hndC _ _).mp hp)).2.2 i hi
      exact ⟨(i, v), (mem_iff_mlookup _ hndO _ _).mpr hv, rfl, hcv⟩
    · intro q hq c hc
      obtain ⟨qk, qv⟩ := q
      obtain ⟨bucket, hb, hib⟩ := l2 qk qv ((mem_iff_mlookup _ hndS _ _).mp hq) c hc
      exact ⟨(c, bucket), (mem_iff_mlookup _ hndC _ _).mpr hb, rfl, hib⟩
    · intro q hq c hc
      obtain ⟨qk, qv⟩ := q
      obtain ⟨bucket, hb, hib⟩ := l3 qk qv ((mem_iff_mlookup _ hndO _ _).mp hq) c hc
      exact ⟨(c, bucket), (mem_iff_mlookup _ hndC _ _).mpr hb, rfl, hib⟩

/-- C8: the cell-index invariant is preserved by every store operation.
Starting from any well-formed store satisfying the invariant (every bucket
non-empty, a cell indexed iff some stored entity covers it, and a bucket
lists an entity's id iff the cell lies in that entity's `vol4.cells`),
`upsert_subscription`, `upsert_operation`, `delete_subscription` and
`delete_operation` each yield a well-formed store satisfying the invariant
again, for arbitrary arguments. -/
theorem c8_cell_index_invariant_preserved (s : MemoryScdStorage)
    (hwf : StoreWF s) (hinv : CellIndexInv s) (sub : Subscription) (op : Operation)
    (sid oid : Nat) :
    (StoreWF (s.upsert_subscription sub) ∧ CellIndexInv (s.upsert_subscription sub)) ∧
    (StoreWF (s.upsert_operation op) ∧ CellIndexInv (s.upsert_operation op)) ∧
    (StoreWF (s.delete_subscription sid) ∧ CellIndexInv (s.delete_subscription sid)) ∧
    (StoreWF (s.delete_operation oid) ∧ CellIndexInv (s.delete_operation oid)) := by
  have hL := (cellIndexInv_iff_L s hwf).mp hinv
  refine ⟨⟨upsert_subscription_wf s sub hwf, ?_⟩,
    ⟨upsert_operation_wf s op hwf, ?_⟩,
    ⟨delete_subscription_wf s sid hwf, ?_⟩,
    ⟨delete_operation_wf s oid hwf, ?_⟩⟩
  · exact (cellIndexInv_iff_L _ (upsert_subscription_wf s sub hwf)).mpr
      (upsert_subscription_cellInvL s sub hwf hL)
  · exact (cellIndexInv_iff_L _ (upsert_operation_wf s op hwf)).mpr
      (upsert_operation_cellInvL s op hwf hL)
  · exact (cellIndexInv_iff_L _ (delete_subscription_wf s sid hwf)).mpr
      (delete_subscription_cellInvL s sid hwf hL)
  · exact (cellIndexInv_iff_L _ (delete_operation_wf s oid hwf)).mpr
      (delete_operation_cellInvL s oid hwf hL)

/-- Witness for `c8_cell_index_invariant_preserved`: the store holding the
single subscription `wSub` is well-formed and satisfies the invariant, and
the theorem instantiates on it with a subscription upsert, an operation
upsert, and both deletes. -/
theorem c8_cell_index_invariant_preserved_witness :
    (StoreWF wStoreSub ∧ CellIndexInv wStoreSub) ∧
    ((StoreWF (wStoreSub.upsert_subscription wSub) ∧
      CellIndexInv (wStoreSub.upsert_subscription wSub)) ∧
     (StoreWF (wStoreSub.upsert_operation wOp) ∧
      CellIndexInv (wStoreSub.upsert_operation wOp)) ∧
     (StoreWF (wStoreSub.delete_subscription 1) ∧
      CellIndexInv (wStoreSub.delete_subscription 1)) ∧
     (StoreWF (wStoreSub.delete_operation 100) ∧
      CellIndexInv (wStoreSub.delete_operation 100))) :=
  ⟨⟨by decide, by decide⟩,
   c8_cell_index_invariant_preserved wStoreSub (by decide) (by decide) wSub wOp 1 100⟩

/-! ## C3: the binding invariant over request sequences -/

/-- One external mutation of the DSS: the four write endpoints with their
request-level inputs (`now` is the server clock reading, `freshSubId`/`ovn`
stand for the `uuid.uuid4()`/`make_ovn()` draws). -/
inductive DssAction where
  | putSub (id caller : Nat) (req : SubscriptionRequest) (now : Int)
  | delSub (id caller : Nat)
  | putOp (id caller : Nat) (req : OperationRequest) (freshSubId ovn : Nat)
  | delOp (id caller : Nat)

/-- The store after serving one request (the response is discarded; failed
requests keep whatever state the handler left behind). -/
def DssAction.apply (a : DssAction) (s : MemoryScdStorage) : MemoryScdStorage :=
  match a with
  | .putSub id caller req now => (PutSubscription s id caller req now).1
  | .delSub id caller => (DeleteSubscription s id caller).1
  | .putOp id caller req freshSubId ovn => (PutOperation s id caller req freshSubId ovn).1
  | .delOp id caller => (DeleteOperation s id caller).1

/-- States reachable from the empty store by an arbitrary request sequence. -/
inductive Reachable : MemoryScdStorage → Prop where
  | empty : Reachable MemoryScdStorage.empty
  | step (s : MemoryScdStorage) (a : DssAction) (h : Reachable s) : Reachable (a.apply s)

/-- The side conditions under which the binding invariant survives a request:
a subscription PUT or DELETE may only target a subscription with no dependent
operations (the handlers never check this), and the fresh id drawn for an
implicit subscription must be unused (a `uuid.uuid4()` collision would
silently overwrite a stored subscription). -/
def OkAction (s : MemoryScdStorage) (a : DssAction) : Prop :=
  match a with
  | .putSub id _ _ _ =>
    ∀ q ∈ s.subscriptions, q.1 = id → (q.2 : Subscription).dependent_operations = ∅
  | .delSub id _ =>
    ∀ q ∈ s.subscriptions, q.1 = id → (q.2 : Subscription).dependent_operations = ∅
  | .putOp _ _ _ freshSubId _ => mlookup s.subscriptions freshSubId = none
  | .delOp _ _ => True

/-- States reachable from the empty store by request sequences satisfying
`OkAction` at every step. -/
inductive ReachableOk : MemoryScdStorage → Prop where
  | empty : ReachableOk MemoryScdStorage.empty
  | step (s : MemoryScdStorage) (a : DssAction) (h : ReachableOk s)
      (hok : OkAction s a) : ReachableOk (a.apply s)

/-- §8's binding invariant: every stored Operation references a stored
Subscription whose volume contains the Operation's volume and whose
`dependent_operations` lists the Operation's id, and every implicit
Subscription has dependent operations. -/
def BindingInv (s : MemoryScdStorage) : Prop :=
  (∀ p ∈ s.operations,
     ∃ q ∈ s.subscriptions, q.1 = (p.2 : Operation).subscription ∧
       Volume4.contains (q.2 : Subscription).vol4 (p.2 : Operation).vol4 = .ok true ∧
       p.1 ∈ (q.2 : Subscription).dependent_operations) ∧
  (∀ q ∈ s.subscriptions, (q.2 : Subscription).implicit_subscription = true →
     (q.2 : Subscription).dependent_operations ≠ ∅)

/-- The binding invariant phrased through `mlookup`. -/
def BindingInvL (s : MemoryScdStorage) : Prop :=
  (∀ j op, mlookup s.operations j = some op →
     ∃ sub, mlookup s.subscriptions (op : Operation).subscription = some sub ∧
       Volume4.contains sub.vol4 op.vol4 = .ok true ∧
       j ∈ sub.dependent_operations) ∧
  (∀ k sub, mlookup s.subscriptions k = some sub →
     (sub : Subscription).implicit_subscription = true →
     sub.dependent_operations ≠ ∅)

instance (s : MemoryScdStorage) : Decidable (BindingInv s) := by
  unfold BindingInv
  infer_instance

instance (s : MemoryScdStorage) (a : DssAction) : Decidable (OkAction s a) := by
  cases a with
  | putSub id caller req now =>
    unfold OkAction
    infer_instance
  | delSub id caller =>
    unfold OkAction
    infer_instance
  | putOp id caller req freshSubId ovn =>
    unfold OkAction
    infer_instance
  | delOp id caller =>
    unfold OkAction
    infer_instance

/-- Under distinct keys, the membership and lookup phrasings of the binding
invariant agree. -/
theorem bindingInv_iff_L (s : MemoryScdStorage) (hndS : mkeysNodup s.subscriptions)
    (hndO : mkeysNodup s.operations) : BindingInv s ↔ BindingInvL s := by
  unfold BindingInv BindingInvL
  constructor
  · rintro ⟨h1, h2⟩
    refine ⟨?_, ?_⟩
    · intro j op hl
      obtain ⟨q, hq, hqi, hqc, hqd⟩ := h1 (j, op) ((mem_iff_mlookup _ hndO _ _).mpr hl)
      obtain ⟨qk, qv⟩ := q
      subst hqi
      exact ⟨qv, (mem_iff_mlookup _ hndS _ _).mp hq, hqc, hqd⟩
    · intro k sub hl
      exact h2 (k, sub) ((mem_iff_mlookup _ hndS _ _).mpr hl)
  · rintro ⟨l1, l2⟩
    refine ⟨?_, ?_⟩
    · intro p hp
      obtain ⟨pk, pv⟩ := p
      obtain ⟨sub, hs, hc, hd⟩ := l1 pk pv ((mem_iff_mlookup _ hndO _ _).mp hp)
      exact ⟨(pv.subscription, sub), (mem_iff_mlookup _ hndS _ _).mpr hs, rfl, hc, hd⟩
    · intro q hq
      obtain ⟨qk, qv⟩ := q
      exact l2 qk qv ((mem_iff_mlookup _ hndS _ _).mp hq)

/-- `Volume4.contains` is reflexive on fully bounded volumes. -/
theorem Volume4.contains_self (v : Volume4)
    (hts : v.time_start ≠ none) (hte : v.time_end ≠ none)
    (hlo : v.altitude_lo ≠ none) (hhi : v.altitude_hi ≠ none) :
    Volume4.contains v v = .ok true := by
  cases hlo2 : v.altitude_lo with
  | none => exact absurd hlo2 hlo
  | some lo =>
  cases hhi2 : v.altitude_hi with
  | none => exact absurd hhi2 hhi
  | some hi =>
  cases hts2 : v.time_start with
  | none => exact absurd hts2 hts
  | some ts =>
  cases hte2 : v.time_end with
  | none => exact absurd hte2 hte
  | some te =>
  unfold Volume4.contains
  rw [hlo2, hhi2, hts2, hte2]
  simp [cmpLt, cmpGt]
  rfl

/-- A subscription PUT whose target has no dependent operations preserves
well-formedness and the binding invariant, whether it succeeds or fails. -/
theorem c3_putSub_preserved (s : MemoryScdStorage) (id caller : Nat)
    (req : SubscriptionRequest) (now : Int)
    (hok : ∀ q ∈ s.subscriptions, q.1 = id → (q.2 : Subscription).dependent_operations = ∅)
    (hwf : StoreWF s) (hinv : BindingInvL s) :
    StoreWF (PutSubscription s id caller req now).1 ∧
    BindingInvL (PutSubscription s id caller req now).1 := by
  obtain ⟨hndS, hndO, hndC, hidS, hidO⟩ := hwf
  cases hps : PutSubscription s id caller req now with
  | mk s' e =>
  obtain ⟨l1, l2⟩ := hinv
  rcases PutSubscription_state hps with ⟨hse, _⟩ | ⟨ns0, hfr, hown, hse, hresp⟩
  · subst hse
    exact ⟨⟨hndS, hndO, hndC, hidS, hidO⟩, l1, l2⟩
  · subst hse
    obtain ⟨hid0, hown0, hver0, himp0, hex, hnex⟩ := subFromRequest_ok hfr
    have hnsid : ({ ns0 with version := ns0.version + 1 } : Subscription).id = id := hid0
    have hnsimp : ({ ns0 with version := ns0.version + 1 } : Subscription).implicit_subscription
        = false := himp0
    have hnodep : ∀ sub_i, mlookup s.subscriptions id = some sub_i →
        sub_i.dependent_operations = ∅ := by
      intro sub_i hsi
      exact hok (id, sub_i) ((mem_iff_mlookup _ hndS _ _).mpr hsi) rfl
    refine ⟨upsert_subscription_wf s _ ⟨hndS, hndO, hndC, hidS, hidO⟩, ?_, ?_⟩
    · intro j op hl
      rw [upsert_subscription_ops] at hl
      obtain ⟨sub_j, hsj, hcj, hdj⟩ := l1 j op hl
      rw [upsert_subscription_subs_lookup, hnsid]
      by_cases hos : op.subscription = id
      · rw [hos] at hsj
        rw [hnodep sub_j hsj] at hdj
        exact absurd hdj (Finset.not_mem_empty j)
      · rw [if_neg hos]
        exact ⟨sub_j, hsj, hcj, hdj⟩
    · intro k sub' hl
      rw [upsert_subscription_subs_lookup, hnsid] at hl
      by_cases hk : k = id
      · rw [if_pos hk] at hl
        obtain rfl := Option.some.inj hl
        intro himp
        rw [hnsimp] at himp
        exact Bool.noConfusion himp
      · rw [if_neg hk] at hl
        exact l2 k sub' hl

/-- A subscription DELETE whose target has no dependent operations preserves
well-formedness and the binding invariant. -/
theorem c3_delSub_preserved (s : MemoryScdStorage) (id caller : Nat)
    (hok : ∀ q ∈ s.subscriptions, q.1 = id → (q.2 : Subscription).dependent_operations = ∅)
    (hwf : StoreWF s) (hinv : BindingInvL s) :
    StoreWF (DeleteSubscription s id caller).1 ∧
    BindingInvL (DeleteSubscription s id caller).1 := by
  obtain ⟨hndS, hndO, hndC, hidS, hidO⟩ := hwf
  cases hds : DeleteSubscription s id caller with
  | mk s' e =>
  obtain ⟨l1, l2⟩ := hinv
  rcases DeleteSubscription_state hds with ⟨hse, _⟩ | ⟨old, hold, hown, hse, hresp⟩
  · subst hse
    exact ⟨⟨hndS, hndO, hndC, hidS, hidO⟩, l1, l2⟩
  · subst hse
    refine ⟨delete_subscription_wf s id ⟨hndS, hndO, hndC, hidS, hidO⟩, ?_, ?_⟩
    · intro j op hl
      rw [(delete_subscription_present s id hold).2] at hl
      obtain ⟨sub_j, hsj, hcj, hdj⟩ := l1 j op hl
      rw [(delete_subscription_present s id hold).1]
      by_cases hos : op.subscription = id
      · rw [hos] at hsj
        rw [hok (id, sub_j) ((mem_iff_mlookup _ hndS _ _).mpr hsj) rfl] at hdj
        exact absurd hdj (Finset.not_mem_empty j)
      · rw [mlookup_merase_ne _ _ _ hos]
        exact ⟨sub_j, hsj, hcj, hdj⟩
    · intro k sub' hl
      rw [(delete_subscription_present s id hold).1] at hl
      by_cases hk : k = id
      · rw [hk, mlookup_merase_self] at hl
        exact Option.noConfusion hl
      · rw [mlookup_merase_ne _ _ _ hk] at hl
        exact l2 k sub' hl

/-- Removing an operation from the store (without touching subscriptions)
preserves well-formedness and the binding invariant. -/
theorem c3_delete_op_store_inv (s : MemoryScdStorage) (id : Nat)
    (hwf : StoreWF s) (hinv : BindingInvL s) :
    StoreWF (s.delete_operation id) ∧ BindingInvL (s.delete_operation id) := by
  obtain ⟨l1, l2⟩ := hinv
  refine ⟨delete_operation_wf s id hwf, ?_, ?_⟩
  · intro j op hl
    rw [delete_operation_subs]
    cases holdop : mlookup s.operations id with
    | none =>
      rw [delete_operation_absent s id holdop] at hl
      exact l1 j op hl
    | some oldOp =>
      rw [(delete_operation_present s id holdop).1] at hl
      have hj : j ≠ id := by
        intro he
        rw [he, mlookup_merase_self] at hl
        exact Option.noConfusion hl
      rw [mlookup_merase_ne _ _ _ hj] at hl
      exact l1 j op hl
  · intro k sub' hl
    rw [delete_operation_subs] at hl
    exact l2 k sub' hl

/-- An operation DELETE preserves well-formedness and the binding invariant
unconditionally (on every path, including the post-delete failures). -/
theorem c3_delOp_preserved (s : MemoryScdStorage) (id caller : Nat)
    (hwf : StoreWF s) (hinv : BindingInvL s) :
    StoreWF (DeleteOperation s id caller).1 ∧
    BindingInvL (DeleteOperation s id caller).1 := by
  cases hdo : DeleteOperation s id caller with
  | mk s' e =>
  rcases DeleteOperation_state hdo with ⟨hse, _⟩ | ⟨oldOp, holdop, hown, hbr⟩
  · subst hse
    exact ⟨hwf, hinv⟩
  rcases hbr with ⟨hse, hsubnone, _⟩ | ⟨sub, hsub, hdep2, hse, _⟩ |
    ⟨sub, sub1, s2, hsub, hdep, hsub1, hs2, hse, hresp⟩
  · subst hse
    exact c3_delete_op_store_inv s id hwf hinv
  · subst hse
    exact c3_delete_op_store_inv s id hwf hinv
  · obtain ⟨hndS, hndO, hndC, hidS, hidO⟩ := hwf
    obtain ⟨l1, l2⟩ := hinv
    have hsubS : mlookup s.subscriptions oldOp.subscription = some sub := by
      rw [delete_operation_subs] at hsub
      exact hsub
    have hkey : sub.id = oldOp.subscription :=
      hidS (oldOp.subscription, sub) ((mem_iff_mlookup _ hndS _ _).mpr hsubS)
    have hsub1id : sub1.id = oldOp.subscription := by
      rw [hsub1]
      exact hkey
    have hvol : sub1.vol4 = sub.vol4 := by rw [hsub1]
    have hdeps : sub1.dependent_operations = sub.dependent_operations.erase id := by
      rw [hsub1]
    have himpl : sub1.implicit_subscription = sub.implicit_subscription := by rw [hsub1]
    have hs2subs : s2.subscriptions = minsert oldOp.subscription sub1 s.subscriptions := by
      rw [hs2]
      dsimp only
      rw [delete_operation_subs]
    have hs2ops : s2.operations = merase id s.operations := by
      rw [hs2]
      dsimp only
      exact (delete_operation_present s id holdop).1
    obtain ⟨h1a, h1b, h1c, h1d, h1e⟩ :=
      delete_operation_wf s id ⟨hndS, hndO, hndC, hidS, hidO⟩
    have hwf2 : StoreWF s2 := by
      rw [hs2]
      refine ⟨mkeysNodup_minsert _ _ _ h1a, h1b, h1c, ?_, h1e⟩
      intro p hp
      rcases mem_minsert _ _ _ p hp with h1 | h2
      · subst h1
        exact hsub1id
      · exact h1d p h2
    have hpres : mlookup s2.subscriptions sub1.id = some sub1 := by
      rw [hs2subs, hsub1id]
      exact mlookup_minsert_self _ _ _
    by_cases hcond : (sub1.implicit_subscription &&
        decide (sub1.dependent_operations = ∅)) = true
    · rw [if_pos hcond] at hse
      subst hse
      rw [Bool.and_eq_true] at hcond
      obtain ⟨hc1, hc2⟩ := hcond
      have hdeps1 : sub1.dependent_operations = ∅ := of_decide_eq_true hc2
      have herase : sub.dependent_operations.erase id = ∅ := by
        rw [← hdeps]
        exact hdeps1
      refine ⟨delete_subscription_wf s2 sub1.id hwf2, ?_, ?_⟩
      · intro j op hl
        rw [(delete_subscription_present s2 sub1.id hpres).2, hs2ops] at hl
        have hj : j ≠ id := by
          intro he
          rw [he, mlookup_merase_self] at hl
          exact Option.noConfusion hl
        rw [mlookup_merase_ne _ _ _ hj] at hl
        obtain ⟨sub_j, hsj, hcj, hdj⟩ := l1 j op hl
        rw [(delete_subscription_present s2 sub1.id hpres).1, hs2subs, hsub1id]
        by_cases hos : op.subscription = oldOp.subscription
        · rw [hos] at hsj
          rw [hsubS] at hsj
          obtain rfl := Option.some.inj hsj
          have hmem : j ∈ sub.dependent_operations.erase id :=
            Finset.mem_erase.mpr ⟨hj, hdj⟩
          rw [herase] at hmem
          exact absurd hmem (Finset.not_mem_empty j)
        · rw [mlookup_merase_ne _ _ _ hos, mlookup_minsert_ne _ _ _ _ hos]
          exact ⟨sub_j, hsj, hcj, hdj⟩
      · intro k sub' hl
        rw [(delete_subscription_present s2 sub1.id hpres).1, hs2subs, hsub1id] at hl
        have hk : k ≠ oldOp.subscription := by
          intro he
          rw [he, mlookup_merase_self] at hl
          exact Option.noConfusion hl
        rw [mlookup_merase_ne _ _ _ hk, mlookup_minsert_ne _ _ _ _ hk] at hl
        exact l2 k sub' hl
    · rw [if_neg hcond] at hse
      subst hse
      have hsub2id : ({ sub1 with version := sub1.version + 1 } : Subscription).id
          = oldOp.subscription := hsub1id
      refine ⟨upsert_subscription_wf s2 _ hwf2, ?_, ?_⟩
      · intro j op hl
        rw [upsert_subscription_ops, hs2ops] at hl
        have hj : j ≠ id := by
          intro he
          rw [he, mlookup_merase_self] at hl
          exact Option.noConfusion hl
        rw [mlookup_merase_ne _ _ _ hj] at hl
        obtain ⟨sub_j, hsj, hcj, hdj⟩ := l1 j op hl
        rw [upsert_subscription_subs_lookup, hsub2id]
        by_cases hos : op.subscription = oldOp.subscription
        · rw [if_pos hos]
          rw [hos] at hsj
          rw [hsubS] at hsj
          obtain rfl := Option.some.inj hsj
          refine ⟨_, rfl, ?_, ?_⟩
          · show Volume4.contains sub1.vol4 op.vol4 = .ok true
            rw [hvol]
            exact hcj
          · show j ∈ sub1.dependent_operations
            rw [hdeps]
            exact Finset.mem_erase.mpr ⟨hj, hdj⟩
        · rw [if_neg hos, hs2subs, mlookup_minsert_ne _ _ _ _ hos]
          exact ⟨sub_j, hsj, hcj, hdj⟩
      · intro k sub' hl
        rw [upsert_subscription_subs_lookup, hsub2id] at hl
        by_cases hk : k = oldOp.subscription
        · rw [if_pos hk] at hl
          obtain rfl := Option.some.inj hl
          intro himp
          have himp1 : sub1.implicit_subscription = true := himp
          have hne : ¬(sub1.dependent_operations = ∅) := by
            intro he
            apply hcond
            rw [himp1, he]
            simp
          exact hne
        · rw [if_neg hk, hs2subs, mlookup_minsert_ne _ _ _ _ hk] at hl
          exact l2 k sub' hl

/-- The in-place mutation of a cited subscription (dependent id added,
version bumped) preserves well-formedness and the binding invariant, even
when the surrounding PUT later fails. -/
theorem c3_citedSub_inv (s : MemoryScdStorage) (id subId : Nat) (sub0 sub : Subscription)
    (hlook : mlookup s.subscriptions subId = some sub0)
    (hsubdef : sub = { sub0 with
      dependent_operations := insert id sub0.dependent_operations,
      version := sub0.version + 1 })
    (hwf : StoreWF s) (hinv : BindingInvL s) :
    StoreWF { s with subscriptions := minsert subId sub s.subscriptions } ∧
    BindingInvL { s with subscriptions := minsert subId sub s.subscriptions } := by
  obtain ⟨hndS, hndO, hndC, hidS, hidO⟩ := hwf
  obtain ⟨l1, l2⟩ := hinv
  have hid0 : sub0.id = subId :=
    hidS (subId, sub0) ((mem_iff_mlookup _ hndS _ _).mpr hlook)
  have hsubid : sub.id = subId := by
    rw [hsubdef]
    exact hid0
  have hsvol : sub.vol4 = sub0.vol4 := by rw [hsubdef]
  have hsdeps : sub.dependent_operations = insert id sub0.dependent_operations := by
    rw [hsubdef]
  constructor
  · refine ⟨mkeysNodup_minsert _ _ _ hndS, hndO, hndC, ?_, hidO⟩
    intro p hp
    rcases mem_minsert _ _ _ p hp with h1 | h2
    · subst h1
      exact hsubid
    · exact hidS p h2
  · constructor
    · intro j op hl
      have hl2 : mlookup s.operations j = some op := hl
      obtain ⟨sub_j, hsj, hcj, hdj⟩ := l1 j op hl2
      by_cases hos : op.subscription = subId
      · rw [hos, hlook] at hsj
        obtain rfl := Option.some.inj hsj
        have hfind : mlookup (minsert subId sub s.subscriptions) op.subscription
            = some sub := by
          rw [hos]
          exact mlookup_minsert_self _ _ _
        have hc2 : Volume4.contains sub.vol4 op.vol4 = .ok true := by
          rw [hsvol]
          exact hcj
        have hd2 : j ∈ sub.dependent_operations := by
          rw [hsdeps]
          exact Finset.mem_insert_of_mem hdj
        exact ⟨sub, hfind, hc2, hd2⟩
      · have hfind : mlookup (minsert subId sub s.subscriptions) op.subscription
            = some sub_j := by
          rw [mlookup_minsert_ne _ _ _ _ hos]
          exact hsj
        exact ⟨sub_j, hfind, hcj, hdj⟩
    · intro k sub' hl
      have hl2 : mlookup (minsert subId sub s.subscriptions) k = some sub' := hl
      by_cases hk : k = subId
      · rw [hk, mlookup_minsert_self] at hl2
        obtain rfl := Option.some.inj hl2
        intro _
        rw [hsdeps]
        exact Finset.insert_ne_empty _ _
      · rw [mlookup_minsert_ne _ _ _ _ hk] at hl2
        exact l2 k sub' hl2

/-- The common tail of a successful operation PUT: persisting the new
operation and its bound subscription preserves well-formedness and the
binding invariant, provided the subscription covers the operation, lists it,
and does not orphan any other stored operation. -/
theorem c3_putOpFinish_inv (s1 : MemoryScdStorage) (newOp : Operation)
    (sub : Subscription)
    (hwf1 : StoreWF s1) (hinv1 : BindingInvL s1)
    (hopsub : newOp.subscription = sub.id)
    (hcont : Volume4.contains sub.vol4 newOp.vol4 = .ok true)
    (hdep : newOp.id ∈ sub.dependent_operations)
    (himp : sub.implicit_subscription = true → sub.dependent_operations ≠ ∅)
    (hre : ∀ j op, mlookup s1.operations j = some op → op.subscription = sub.id →
       Volume4.contains sub.vol4 op.vol4 = .ok true ∧ j ∈ sub.dependent_operations) :
    StoreWF ((s1.upsert_operation newOp).upsert_subscription sub) ∧
    BindingInvL ((s1.upsert_operation newOp).upsert_subscription sub) := by
  obtain ⟨l1, l2⟩ := hinv1
  refine ⟨upsert_subscription_wf _ _ (upsert_operation_wf _ _ hwf1), ?_, ?_⟩
  · intro j op hl
    rw [upsert_subscription_ops, upsert_operation_ops_lookup] at hl
    rw [upsert_subscription_subs_lookup]
    by_cases hj : j = newOp.id
    · rw [if_pos hj] at hl
      obtain rfl := Option.some.inj hl
      subst hj
      rw [hopsub, if_pos rfl]
      exact ⟨sub, rfl, hcont, hdep⟩
    · rw [if_neg hj] at hl
      by_cases hos : op.subscription = sub.id
      · rw [if_pos hos]
        obtain ⟨hc, hd⟩ := hre j op hl hos
        exact ⟨sub, rfl, hc, hd⟩
      · rw [if_neg hos, upsert_operation_subs]
        exact l1 j op hl
  · intro k sub' hl
    rw [upsert_subscription_subs_lookup] at hl
    by_cases hk : k = sub.id
    · rw [if_pos hk] at hl
      obtain rfl := Option.some.inj hl
      exact himp
    · rw [if_neg hk, upsert_operation_subs] at hl
      exact l2 k sub' hl

/-- An operation PUT with a collision-free fresh implicit-subscription id
preserves well-formedness and the binding invariant on every path. -/
theorem c3_putOp_preserved (s : MemoryScdStorage) (id caller : Nat)
    (req : OperationRequest) (freshSubId ovn : Nat)
    (hok : mlookup s.subscriptions freshSubId = none)
    (hwf : StoreWF s) (hinv : BindingInvL s) :
    StoreWF (PutOperation s id caller req freshSubId ovn).1 ∧
    BindingInvL (PutOperation s id caller req freshSubId ovn).1 := by
  cases hpo : PutOperation s id caller req freshSubId ovn with
  | mk s' e =>
  rcases PutOperation_state hpo with hse |
    ⟨subId, sub0, sub, hsid, hlook, hsubdef, hrest⟩ |
    ⟨ns, url, vol4, op0, sub, hsid, hns, hurl, hsubdef, hfrok, hse⟩
  · subst hse
    exact ⟨hwf, hinv⟩
  · rcases hrest with hse | ⟨vol4, op0, hcont, hfrok, hse⟩
    · subst hse
      exact c3_citedSub_inv s id subId sub0 sub hlook hsubdef hwf hinv
    · subst hse
      obtain ⟨hwf1, hinv1⟩ := c3_citedSub_inv s id subId sub0 sub hlook hsubdef hwf hinv
      obtain ⟨l1, l2⟩ := hinv
      obtain ⟨hndS, hndO, hndC, hidS, hidO⟩ := hwf
      obtain ⟨hop0, hts, hte, hlo, hhi, _, _⟩ := opFromRequest_ok hfrok
      have hid0 : sub0.id = subId :=
        hidS (subId, sub0) ((mem_iff_mlookup _ hndS _ _).mpr hlook)
      have hsubid : sub.id = subId := by
        rw [hsubdef]
        exact hid0
      have hsvol : sub.vol4 = sub0.vol4 := by rw [hsubdef]
      have hsdeps : sub.dependent_operations = insert id sub0.dependent_operations := by
        rw [hsubdef]
      have hopsub : ({ op0 with version := op0.version + 1 } : Operation).subscription
          = sub.id := by
        rw [hop0]
      have hopvol : ({ op0 with version := op0.version + 1 } : Operation).vol4 = vol4 := by
        rw [hop0]
      have hopid : ({ op0 with version := op0.version + 1 } : Operation).id = id := by
        rw [hop0]
      have hcont2 : Volume4.contains sub.vol4
          ({ op0 with version := op0.version + 1 } : Operation).vol4 = .ok true := by
        rw [hopvol]
        exact hcont
      have hdep2 : ({ op0 with version := op0.version + 1 } : Operation).id
          ∈ sub.dependent_operations := by
        rw [hopid, hsdeps]
        exact Finset.mem_insert_self _ _
      have himp2 : sub.implicit_subscription = true →
          sub.dependent_operations ≠ ∅ := by
        intro _
        rw [hsdeps]
        exact Finset.insert_ne_empty _ _
      have hre : ∀ j op,
          mlookup ({ s with subscriptions := minsert subId sub s.subscriptions }
            : MemoryScdStorage).operations j = some op →
          op.subscription = sub.id →
          Volume4.contains sub.vol4 op.vol4 = .ok true ∧
          j ∈ sub.dependent_operations := by
        intro j op hl hos
        have hl2 : mlookup s.operations j = some op := hl
        obtain ⟨sub_j, hsj, hcj, hdj⟩ := l1 j op hl2
        rw [hsubid] at hos
        rw [hos, hlook] at hsj
        obtain rfl := Option.some.inj hsj
        constructor
        · rw [hsvol]
          exact hcj
        · rw [hsdeps]
          exact Finset.mem_insert_of_mem hdj
      exact c3_putOpFinish_inv _ _ sub hwf1 hinv1 hopsub hcont2 hdep2 himp2 hre
  · subst hse
    obtain ⟨l1, l2⟩ := hinv
    obtain ⟨hop0, hts, hte, hlo, hhi, _, _⟩ := opFromRequest_ok hfrok
    have hsubid : sub.id = freshSubId := by rw [hsubdef]
    have hsvol : sub.vol4 = vol4 := by rw [hsubdef]
    have hsdeps : sub.dependent_operations = {id} := by rw [hsubdef]
    have hsimp : sub.implicit_subscription = true := by rw [hsubdef]
    have hopsub : ({ op0 with version := op0.version + 1 } : Operation).subscription
        = sub.id := by
      rw [hop0]
    have hopvol : ({ op0 with version := op0.version + 1 } : Operation).vol4 = vol4 := by
      rw [hop0]
    have hopid : ({ op0 with version := op0.version + 1 } : Operation).id = id := by
      rw [hop0]
    have hcont2 : Volume4.contains sub.vol4
        ({ op0 with version := op0.version + 1 } : Operation).vol4 = .ok true := by
      rw [hopvol, hsvol]
      exact Volume4.contains_self vol4 hts hte hlo hhi
    have hdep2 : ({ op0 with version := op0.version + 1 } : Operation).id
        ∈ sub.dependent_operations := by
      rw [hopid, hsdeps]
      exact Finset.mem_singleton_self _
    have himp2 : sub.implicit_subscription = true →
        sub.dependent_operations ≠ ∅ := by
      intro _
      rw [hsdeps]
      exact Finset.singleton_ne_empty _
    have hre : ∀ j op, mlookup s.operations j = some op →
        op.subscription = sub.id →
        Volume4.contains sub.vol4 op.vol4 = .ok true ∧
        j ∈ sub.dependent_operations := by
      intro j op hl hos
      obtain ⟨sub_j, hsj, hcj, hdj⟩ := l1 j op hl
      rw [hsubid] at hos
      rw [hos, hok] at hsj
      exact Option.noConfusion hsj
    exact c3_putOpFinish_inv s _ sub hwf ⟨l1, l2⟩ hopsub hcont2 hdep2 himp2 hre

/-- Every state reachable under the `OkAction` side conditions is well-formed
and satisfies the binding invariant. -/
theorem reachableOk_wf_bindingInv (s : MemoryScdStorage) (h : ReachableOk s) :
    StoreWF s ∧ BindingInv s := by
  induction h with
  | empty => exact ⟨by decide, by decide⟩
  | step s a h hok ih =>
    obtain ⟨hwf, hinv⟩ := ih
    have hL := (bindingInv_iff_L s hwf.1 hwf.2.1).mp hinv
    cases a with
    | putSub id caller req now =>
      obtain ⟨hwf2, hinv2⟩ := c3_putSub_preserved s id caller req now hok hwf hL
      exact ⟨hwf2, (bindingInv_iff_L _ hwf2.1 hwf2.2.1).mpr hinv2⟩
    | delSub id caller =>
      obtain ⟨hwf2, hinv2⟩ := c3_delSub_preserved s id caller hok hwf hL
      exact ⟨hwf2, (bindingInv_iff_L _ hwf2.1 hwf2.2.1).mpr hinv2⟩
    | putOp id caller req freshSubId ovn =>
      obtain ⟨hwf2, hinv2⟩ := c3_putOp_preserved s id caller req freshSubId ovn hok hwf hL
      exact ⟨hwf2, (bindingInv_iff_L _ hwf2.1 hwf2.2.1).mpr hinv2⟩
    | delOp id caller =>
      obtain ⟨hwf2, hinv2⟩ := c3_delOp_preserved s id caller hwf hL
      exact ⟨hwf2, (bindingInv_iff_L _ hwf2.1 hwf2.2.1).mpr hinv2⟩

/-- C3 (amended): the binding invariant holds in every state reachable from
the empty store by request sequences in which each subscription PUT and each
subscription DELETE targets a subscription with no dependent operations and
each operation PUT draws an unused implicit-subscription id.  (As stated
over *all* sequences the claim is false: `DeleteSubscription` and a mutating
`PutSubscription` never check `dependent_operations`, so they can orphan a
stored operation — see the counterexample.) -/
theorem c3_binding_invariant_restricted (s : MemoryScdStorage) (h : ReachableOk s) :
    BindingInv s :=
  (reachableOk_wf_bindingInv s h).2

/-- A creation request for an explicit subscription over `wVolBig`. -/
def c3subReq : SubscriptionRequest := ⟨none, some 70, some wVolBig, some true, some false⟩

/-- A creation request for an operation over `wVol` citing subscription 1. -/
def c3opReq : OperationRequest := ⟨[wVol], none, some 71, some 1, none⟩

/-- Store after USS 7 creates subscription 1. -/
def c3s1 : MemoryScdStorage :=
  (DssAction.putSub 1 7 c3subReq 0).apply MemoryScdStorage.empty

/-- Store after USS 7 additionally creates operation 100 citing
subscription 1. -/
def c3s2 : MemoryScdStorage :=
  (DssAction.putOp 100 7 c3opReq 50 60).apply c3s1

/-- Store after USS 7 then deletes subscription 1 (accepted!). -/
def c3s3 : MemoryScdStorage :=
  (DssAction.delSub 1 7).apply c3s2

/-- C3 (counterexample to the claim as stated): create a subscription, bind
an operation to it, then delete the subscription — the DELETE succeeds, the
operation stays, and the binding invariant is broken (the operation
references a subscription that no longer exists). -/
theorem c3_delete_subscription_breaks_binding :
    Reachable c3s3 ∧
    mlookup c3s3.operations 100 ≠ none ∧
    mlookup c3s3.subscriptions 1 = none ∧
    ¬ BindingInv c3s3 :=
  ⟨Reachable.step c3s2 (DssAction.delSub 1 7)
     (Reachable.step c3s1 (DssAction.putOp 100 7 c3opReq 50 60)
       (Reachable.step MemoryScdStorage.empty (DssAction.putSub 1 7 c3subReq 0)
         Reachable.empty)),
   by decide, by decide, by decide⟩

/-- Witness for `c3_binding_invariant_restricted`: the two-step sequence
creating subscription 1 and operation 100 satisfies the side conditions, and
the theorem yields the binding invariant for the resulting store. -/
theorem c3_binding_invariant_restricted_witness : BindingInv c3s2 :=
  c3_binding_invariant_restricted c3s2
    (ReachableOk.step c3s1 (DssAction.putOp 100 7 c3opReq 50 60)
      (ReachableOk.step MemoryScdStorage.empty (DssAction.putSub 1 7 c3subReq 0)
        ReachableOk.empty (by decide))
      (by decide))
